import Mathlib

/-!
# qri: dataset list protocol and dataset / registry actions

A shallow embedding of `p2p/datasets.go`, `repo/actions/dataset.go` and
`repo/actions/registry.go`.

The Go code is written against interfaces (`repo.Repo`, `cafs.Filestore`,
`cafs.Pinner`, `cafs.Fetcher`, the registry client, the p2p transport).  The
embedding keeps them as records of functions over an arbitrary collaborator
state `σ`; every call made on a collaborator is also appended to a call log, so
that "is never called", "is attempted once" and "in that order" are statements
about that log.  A Go `(value, error)` result is an `Except`, a lone `error`
result is an `Option Error` (`none` is `nil`).
-/

namespace Qri

/-! ## Errors -/

/-- Go `error` values as the embedded code can tell them apart.  The sentinels
`repo.ErrNotPinner` and `datastore.ErrNotFound` are compared by identity in the
source; `errorf` is a fresh `fmt.Errorf` with a literal text; `wrapped pre e` is
`fmt.Errorf(pre + "%s", e.Error())`; `nilStore` stands for the nil dereference of
an unconfigured store inside `dsfs`. -/
inductive Error where
  | ErrNotPinner
  | ErrNotFound
  | errorf (text : String)
  | wrapped (pre : String) (cause : Error)
  | nilStore
deriving DecidableEq, Repr

/-! ## Keys (`go-datastore`) -/

/-- A `datastore.Key`: a wrapped string.  The zero value holds the empty string. -/
structure Key where
  string : String
deriving DecidableEq, Repr

/-- `Key.String()`. -/
def Key.String (k : Key) : String := k.string

/-- Split a character list at every slash (`cur` is the reversed segment read so far). -/
def splitSlash : List Char → List Char → List (List Char)
  | cur, [] => [cur.reverse]
  | cur, c :: cs =>
    if c = '/' then cur.reverse :: splitSlash [] cs else splitSlash (c :: cur) cs

/-- Go `path.Clean` on the segments of a rooted path: empty and `.` segments are
dropped, `..` removes the segment before it (and is dropped at the root).
`stack` is the reversed list of segments kept so far. -/
def cleanSegments : List (List Char) → List (List Char) → List (List Char)
  | stack, [] => stack.reverse
  | stack, seg :: rest =>
    if seg = [] ∨ seg = ['.'] then cleanSegments stack rest
    else if seg = ['.', '.'] then cleanSegments stack.tail rest
    else cleanSegments (seg :: stack) rest

/-- Go `path.Clean` of a path that starts with a slash. -/
def pathCleanRooted (cs : List Char) : List Char :=
  '/' :: List.intercalate ['/'] (cleanSegments [] (splitSlash [] cs))

/-- `datastore.NewKey(s)`: the key `s`, cleaned (`Key.Clean`): the empty string
becomes `/`, a string starting with `/` is `path.Clean`ed, any other string is
`path.Clean`ed after a `/` is put in front. -/
def NewKey (s : String) : Key :=
  match s.data with
  | [] => ⟨"/"⟩
  | '/' :: cs => ⟨String.mk (pathCleanRooted ('/' :: cs))⟩
  | cs => ⟨String.mk (pathCleanRooted ('/' :: cs))⟩

/-- Go `strings.TrimSuffix`. -/
def TrimSuffix (s suffix : String) : String :=
  if suffix.data.isSuffixOf s.data then
    String.mk (s.data.take (s.data.length - suffix.data.length))
  else s

/-- `dsfs.PackageFileDataset.String()`: the name of the dataset manifest file. -/
def PackageFileDataset : String := "dataset.json"

/-! ## Datasets (`qri-io/dataset`) -/

/-- A `map[string]interface{}` schema: keys with their encoded values.  A nil map
is `none` where the field is optional; the empty object is `[]`. -/
abbrev Schema := List (String × String)

/-- Fields of `dataset.Structure` the embedded code reads. -/
structure Structure where
  Format : String := ""
  Schema : Option Schema := none
deriving DecidableEq, Repr

/-- A `dataset.User`. -/
structure User where
  ID : String
deriving DecidableEq, Repr

/-- Fields of `dataset.Commit` the embedded code touches. -/
structure Commit where
  Author : Option User := none
  Title : String := ""
deriving DecidableEq, Repr

/-- A `dataset.Meta`. -/
structure Meta where
  Title : String := ""
deriving DecidableEq, Repr

/-- A `dataset.Transform`. -/
structure Transform where
  ScriptPath : String := ""
deriving DecidableEq, Repr

/-- A `dataset.Dataset`: pointer fields are options. -/
structure Dataset where
  Commit : Option Commit := none
  Meta : Option Meta := none
  Structure : Option Structure := none
  Transform : Option Transform := none
  PreviousPath : String := ""
deriving DecidableEq, Repr

/-- A `dataset.DatasetPod`, the encoded form `Dataset.Encode()` returns. -/
structure DatasetPod where
  Path : String := ""
  Commit : Option Commit := none
  Meta : Option Meta := none
  Structure : Option Structure := none
  Transform : Option Transform := none
  PreviousPath : String := ""
deriving DecidableEq, Repr

/-- `Dataset.Encode()`: field by field; the path is not set by the loader (see the
TODO in `DeleteDataset`). -/
def Dataset.Encode (ds : Dataset) : DatasetPod :=
  { Path := "", Commit := ds.Commit, Meta := ds.Meta, Structure := ds.Structure,
    Transform := ds.Transform, PreviousPath := ds.PreviousPath }

/-! ## Repo types (`repo`, `repo/profile`) -/

abbrev ProfileID := String
abbrev PeerID := String
abbrev PubKey := String
abbrev File := String
abbrev Secrets := List (String × String)

/-- A private key; `GetPublic` is its public half. -/
structure PrivKey where
  GetPublic : PubKey
deriving DecidableEq, Repr

/-- Modelled from the spec: the `repo.DatasetRef` type (its declaration is not among
the sources): "{ProfileID, Peername, Name, Path, optional inline Dataset snapshot}". -/
structure DatasetRef where
  ProfileID : ProfileID := ""
  Peername : String := ""
  Name : String := ""
  Path : String := ""
  Dataset : Option DatasetPod := none
deriving DecidableEq, Repr

/-- Modelled from the spec: the `profile.Profile` type (its declaration is not among
the sources): "{ID, Peername, private key material}".  The key is taken to be
present: `DeleteDataset` dereferences it without a check. -/
structure Profile where
  ID : ProfileID
  Peername : String
  PrivKey : PrivKey
deriving DecidableEq, Repr

/-- Modelled from the spec: the event kinds `repo.ETDs...` (their declaration is not
among the sources): "Kind ∈ {Created, Renamed, Pinned, Unpinned, Deleted}". -/
inductive EventType where
  | ETDsCreated
  | ETDsRenamed
  | ETDsPinned
  | ETDsUnpinned
  | ETDsDeleted
deriving DecidableEq, Repr

/-! ## Messages (`p2p`) -/

/-- Options for requesting datasets (`DatasetsListParams`). -/
structure DatasetsListParams where
  Limit : Int := 0
  Offset : Int := 0
  RPC : Bool := false
deriving DecidableEq, Repr

/-- A message body, named by the value whose JSON encoding it holds: the JSON codec
is outside the sources and is taken to round-trip the two payload types. -/
inductive Body where
  | raw (bytes : String)
  | params (p : DatasetsListParams)
  | refs (l : List DatasetRef)
deriving DecidableEq, Repr

/-- Modelled from the spec: the message envelope (`p2p.Message`, not among the
sources): "Fields: Type (string tag), Headers (string→string map; reserved keys:
phase ∈ {request, response}, ...), Body (serialized payload)". -/
structure Message where
  MsgType : String := ""
  ID : String := ""
  Headers : List (String × String) := []
  Body : Body := Body.raw ""
deriving DecidableEq, Repr

/-- `MtDatasets` is a dataset list message. -/
def MtDatasets : String := "list_datasets"

/-- `listMax` is the highest number of entries a list request should return. -/
def listMax : Int := 30

/-- Modelled from the spec: `Message.Header(key)`, the header stored under `key`, the
empty string when there is none (a Go map lookup). -/
def Message.Header (m : Message) (key : String) : String :=
  match m.Headers.find? (fun kv => kv.1 == key) with
  | some kv => kv.2
  | none => ""

/-- Set one header, replacing an earlier value. -/
def setHeader (hs : List (String × String)) (k v : String) : List (String × String) :=
  (hs.filter (fun kv => kv.1 != k)) ++ [(k, v)]

/-- Modelled from the spec: `Message.WithHeaders(k1, v1, k2, v2, ...)`, the message
with those headers set. -/
def Message.WithHeaders (m : Message) (kvs : List (String × String)) : Message :=
  { m with Headers := kvs.foldl (fun hs kv => setHeader hs kv.1 kv.2) m.Headers }

/-- Modelled from the spec: `Message.UpdateJSON(refs)`, the message with its body
replaced by the JSON encoding of `refs` ("Build a response envelope").  The encoding of a
list of refs is taken to succeed; the handler ignores the error result. -/
def Message.UpdateJSON (m : Message) (refs : List DatasetRef) : Message :=
  { m with Body := Body.refs refs }

/-- `json.Unmarshal(body, &DatasetsListParams{})`. -/
def decodeParams : Body → Except Error DatasetsListParams
  | Body.params p => .ok p
  | _ => .error (Error.errorf "json: cannot unmarshal into DatasetsListParams")

/-- `json.Unmarshal(body, &[]repo.DatasetRef{})`: the refs decoded, and the error. -/
def decodeRefs : Body → Except Error (List DatasetRef)
  | Body.refs l => .ok l
  | _ => .error (Error.errorf "json: cannot unmarshal into []repo.DatasetRef")

/-! ## Collaborators

Records of functions over the collaborators' state `σ`.  Reads (`Profile`,
`References`, `GetRef`, canonicalization, `dsfs.LoadDataset`) return a result;
writes return a result and the next state. -/

/-- The `cafs.Pinner` capability of a store. -/
structure Pinner (σ : Type) where
  Pin : Key → Bool → σ → Option Error × σ
  Unpin : Key → Bool → σ → Option Error × σ

/-- The `cafs.Fetcher` capability of a store: `Fetch(source, key)`. -/
structure Fetcher (σ : Type) where
  Fetch : String → Key → σ → Except Error File × σ

/-- `cafs.SourceAny`. -/
def SourceAny : String := "any"

/-- A `cafs.Filestore` as the actions use it: through `dsfs.LoadDataset(store, key)`
and `dsfs.CreateDataset(store, ds, data, pk, pin)`, and through the two optional
capabilities a type assertion asks for. -/
structure Filestore (σ : Type) where
  LoadDataset : Key → σ → Except Error Dataset
  CreateDataset : Dataset → File → Option PrivKey → Bool → σ → Except Error Key × σ
  asFetcher : Option (Fetcher σ)
  asPinner : Option (Pinner σ)

/-- The registry client (`regclient.Client`): `PutDataset` and `DeleteDataset`, each
given `(peername, name, dataset, pubkey)`. -/
structure RegClient (σ : Type) where
  PutDataset : String → String → DatasetPod → PubKey → σ → Option Error × σ
  DeleteDataset : String → String → DatasetPod → PubKey → σ → Option Error × σ

/-- The `repo.Repo` interface as the embedded code uses it, with the functions of the
`repo`, `actions` and `dataset` packages it calls that are not among the sources
(`repo.CanonicalizeDatasetRef`, `ExecTransform`, `Dataset.Assign`). -/
structure Repo (σ : Type) where
  Store : Option (Filestore σ)
  Profile : σ → Except Error Profile
  PrivateKey : Option PrivKey
  Registry : Option (RegClient σ)
  References : Int → Int → σ → Except Error (List DatasetRef)
  GetRef : DatasetRef → σ → Except Error DatasetRef
  PutRef : DatasetRef → σ → Option Error × σ
  DeleteRef : DatasetRef → σ → Option Error × σ
  LogEvent : EventType → DatasetRef → σ → Option Error × σ
  CanonicalizeDatasetRef : DatasetRef → σ → Except Error DatasetRef
  ExecTransform : Dataset → File → Secrets → σ → Except Error (File × Dataset) × σ
  Assign : Dataset → Dataset → Dataset

/-- One call made on a collaborator. -/
inductive Call where
  | Profile
  | References (limit offset : Int)
  | GetRef (ref : DatasetRef)
  | PutRef (ref : DatasetRef)
  | DeleteRef (ref : DatasetRef)
  | LogEvent (t : EventType) (ref : DatasetRef)
  | CanonicalizeDatasetRef (ref : DatasetRef)
  | ExecTransform (ds : Dataset) (data : File)
  | LoadDataset (key : Key)
  | CreateDataset (ds : Dataset) (data : File) (pin : Bool)
  | Fetch (source : String) (key : Key)
  | Pin (key : Key) (recursive : Bool)
  | Unpin (key : Key) (recursive : Bool)
  | RegistryPut (peername name : String) (ds : DatasetPod) (pub : PubKey)
  | RegistryDelete (peername name : String) (ds : DatasetPod) (pub : PubKey)
  | NewJSONBodyMessage (p : DatasetsListParams)
  | SendMessage (msg : Message) (pid : PeerID)
  | sendMessage (msg : Message)
deriving DecidableEq, Repr

/-- The collaborators' state and the calls made on them so far, oldest first. -/
structure World (σ : Type) where
  state : σ
  calls : List Call

/-- The world after a read: the call is logged. -/
def World.read {σ : Type} (w : World σ) (c : Call) : World σ :=
  { w with calls := w.calls ++ [c] }

/-- The world after a write: the call is logged and the state replaced. -/
def World.write {σ : Type} (w : World σ) (c : Call) (s : σ) : World σ :=
  { state := s, calls := w.calls ++ [c] }

/-- `act.Profile()`. -/
def Repo.profile {σ : Type} (r : Repo σ) (w : World σ) :
    Except Error Qri.Profile × World σ :=
  (r.Profile w.state, w.read Call.Profile)

/-- `n.Repo.References(limit, offset)`. -/
def Repo.references {σ : Type} (r : Repo σ) (limit offset : Int) (w : World σ) :
    Except Error (List DatasetRef) × World σ :=
  (r.References limit offset w.state, w.read (Call.References limit offset))

/-- `act.GetRef(ref)`. -/
def Repo.getRef {σ : Type} (r : Repo σ) (ref : DatasetRef) (w : World σ) :
    Except Error DatasetRef × World σ :=
  (r.GetRef ref w.state, w.read (Call.GetRef ref))

/-- `act.PutRef(ref)`. -/
def Repo.putRef {σ : Type} (r : Repo σ) (ref : DatasetRef) (w : World σ) :
    Option Error × World σ :=
  ((r.PutRef ref w.state).1, w.write (Call.PutRef ref) (r.PutRef ref w.state).2)

/-- `act.DeleteRef(ref)`. -/
def Repo.deleteRef {σ : Type} (r : Repo σ) (ref : DatasetRef) (w : World σ) :
    Option Error × World σ :=
  ((r.DeleteRef ref w.state).1, w.write (Call.DeleteRef ref) (r.DeleteRef ref w.state).2)

/-- `act.LogEvent(t, ref)`. -/
def Repo.logEvent {σ : Type} (r : Repo σ) (t : EventType) (ref : DatasetRef) (w : World σ) :
    Option Error × World σ :=
  ((r.LogEvent t ref w.state).1, w.write (Call.LogEvent t ref) (r.LogEvent t ref w.state).2)

/-- `repo.CanonicalizeDatasetRef(act, ref)`: the canonical ref, or the error. -/
def Repo.canonicalize {σ : Type} (r : Repo σ) (ref : DatasetRef) (w : World σ) :
    Except Error DatasetRef × World σ :=
  (r.CanonicalizeDatasetRef ref w.state, w.read (Call.CanonicalizeDatasetRef ref))

/-- `act.ExecTransform(ds, data, secrets)`: the new data and the dataset as the
transform left it. -/
def Repo.execTransform {σ : Type} (r : Repo σ) (ds : Dataset) (data : File) (secrets : Secrets)
    (w : World σ) : Except Error (File × Dataset) × World σ :=
  ((r.ExecTransform ds data secrets w.state).1,
   w.write (Call.ExecTransform ds data) (r.ExecTransform ds data secrets w.state).2)

/-- `dsfs.LoadDataset(store, key)`; a nil store is dereferenced. -/
def dsfsLoadDataset {σ : Type} (store : Option (Filestore σ)) (key : Key) (w : World σ) :
    Except Error Dataset × World σ :=
  match store with
  | none => (.error Error.nilStore, w)
  | some fs => (fs.LoadDataset key w.state, w.read (Call.LoadDataset key))

/-- `dsfs.CreateDataset(store, ds, data, pk, pin)`; a nil store is dereferenced. -/
def dsfsCreateDataset {σ : Type} (store : Option (Filestore σ)) (ds : Dataset) (data : File)
    (pk : Option PrivKey) (pin : Bool) (w : World σ) : Except Error Key × World σ :=
  match store with
  | none => (.error Error.nilStore, w)
  | some fs =>
    ((fs.CreateDataset ds data pk pin w.state).1,
     w.write (Call.CreateDataset ds data pin) (fs.CreateDataset ds data pk pin w.state).2)

/-- The type assertion `act.Store().(cafs.Pinner)`. -/
def Repo.pinner {σ : Type} (r : Repo σ) : Option (Pinner σ) :=
  match r.Store with
  | none => none
  | some fs => fs.asPinner

/-- The type assertion `act.Store().(cafs.Fetcher)`. -/
def Repo.fetcher {σ : Type} (r : Repo σ) : Option (Fetcher σ) :=
  match r.Store with
  | none => none
  | some fs => fs.asFetcher

/-- `pinner.Pin(key, recursive)`. -/
def Pinner.pin {σ : Type} (p : Pinner σ) (key : Key) (recursive : Bool) (w : World σ) :
    Option Error × World σ :=
  ((p.Pin key recursive w.state).1, w.write (Call.Pin key recursive) (p.Pin key recursive w.state).2)

/-- `pinner.Unpin(key, recursive)`. -/
def Pinner.unpin {σ : Type} (p : Pinner σ) (key : Key) (recursive : Bool) (w : World σ) :
    Option Error × World σ :=
  ((p.Unpin key recursive w.state).1,
   w.write (Call.Unpin key recursive) (p.Unpin key recursive w.state).2)

/-- `fetcher.Fetch(source, key)`. -/
def Fetcher.fetch {σ : Type} (f : Fetcher σ) (source : String) (key : Key) (w : World σ) :
    Except Error File × World σ :=
  ((f.Fetch source key w.state).1, w.write (Call.Fetch source key) (f.Fetch source key w.state).2)

/-- `cli.PutDataset(peername, name, ds, pub)`. -/
def RegClient.putDataset {σ : Type} (c : RegClient σ) (peername name : String) (ds : DatasetPod)
    (pub : PubKey) (w : World σ) : Option Error × World σ :=
  ((c.PutDataset peername name ds pub w.state).1,
   w.write (Call.RegistryPut peername name ds pub) (c.PutDataset peername name ds pub w.state).2)

/-- `cli.DeleteDataset(peername, name, ds, pub)`. -/
def RegClient.deleteDataset {σ : Type} (c : RegClient σ) (peername name : String)
    (ds : DatasetPod) (pub : PubKey) (w : World σ) : Option Error × World σ :=
  ((c.DeleteDataset peername name ds pub w.state).1,
   w.write (Call.RegistryDelete peername name ds pub)
     (c.DeleteDataset peername name ds pub w.state).2)

/-! ## `p2p/datasets.go` -/

/-- The parts of a `QriNode` the list protocol uses: its identity, whether it is
online, its repo, and the transport.  `NewJSONBodyMessage(n.ID, type, p)` builds the
request envelope; `SendMessage(req, replies, pid)` sends it, and on success its
result here is the one reply then read from the `replies` channel. -/
structure QriNode (σ : Type) where
  ID : PeerID
  Online : Bool
  Repo : Repo σ
  NewJSONBodyMessage : PeerID → String → DatasetsListParams → Except Error Message
  SendMessage : Message → PeerID → σ → Except Error Message × σ

/-- The stream a request arrived on: `ws.sendMessage(reply)`. -/
structure WrappedStream (σ : Type) where
  sendMessage : Message → σ → Option Error × σ

/-- `fmt.Sprintf("%v", b)` of a boolean. -/
def sprintBool (b : Bool) : String := if b then "true" else "false"

/-- `RequestDatasetsList` gets a list of a peer's datasets. -/
def RequestDatasetsList {σ : Type} (n : QriNode σ) (pid : PeerID) (p : DatasetsListParams)
    (w : World σ) : Except Error (List DatasetRef) × World σ :=
  if pid = n.ID then
    -- requesting self isn't a network operation
    n.Repo.references p.Limit p.Offset w
  else if !n.Online then
    (.error (Error.errorf "not connected to p2p network"), w)
  else
    match n.NewJSONBodyMessage n.ID MtDatasets p with
    | .error e => (.error e, w.read (Call.NewJSONBodyMessage p))
    | .ok req0 =>
      let w1 := w.read (Call.NewJSONBodyMessage p)
      let req := req0.WithHeaders [("phase", "request"), ("RPC", sprintBool p.RPC)]
      match n.SendMessage req pid w1.state with
      | (.error e, s2) =>
        (.error (Error.wrapped "send dataset info message error: " e),
         w1.write (Call.SendMessage req pid) s2)
      | (.ok res, s2) => (decodeRefs res.Body, w1.write (Call.SendMessage req pid) s2)

/-- The loop of `handleDatasetsList` over `refs`, from index `i` on: each ref below
`limit` gets its dataset loaded and attached (with the schema cleared for RPC); the
loop stops at `limit`, leaving the remaining refs as they are.  `none` is the early
return on a load failure. -/
def loadRefs {σ : Type} (r : Repo σ) (rpc : Bool) (limit : Int) :
    Nat → List DatasetRef → World σ → Option (List DatasetRef) × World σ
  | _, [], w => (some [], w)
  | i, ref :: rest, w =>
    if (i : Int) ≥ limit then (some (ref :: rest), w)
    else
      match dsfsLoadDataset r.Store (NewKey ref.Path) w with
      | (.error _, w1) => (none, w1)
      | (.ok ds, w1) =>
        let pod := ds.Encode
        let pod1 : DatasetPod :=
          match pod.Structure with
          | some st =>
            if rpc ∧ st.Schema ≠ none then { pod with Structure := some { st with Schema := some [] } }
            else pod
          | none => pod
        match loadRefs r rpc limit (i + 1) rest w1 with
        | (none, w2) => (none, w2)
        | (some rest1, w2) => (some ({ ref with Dataset := some pod1 } :: rest1), w2)

/-- `handleDatasetsList`: the handler of a `list_datasets` message.  The result is
`hangup`. -/
def handleDatasetsList {σ : Type} (n : QriNode σ) (ws : WrappedStream σ) (msg : Message)
    (w : World σ) : Bool × World σ :=
  if msg.Header "phase" = "request" then
    match decodeParams msg.Body with
    | .error _ => (true, w)
    | .ok dlp0 =>
      let dlp : DatasetsListParams :=
        if dlp0.Limit = 0 ∨ dlp0.Limit > listMax then { dlp0 with Limit := listMax } else dlp0
      match n.Repo.references dlp.Limit dlp.Offset w with
      | (.error _, w1) => (true, w1)
      | (.ok refs, w1) =>
        match loadRefs n.Repo (msg.Header "RPC" = "true") dlp.Limit 0 refs w1 with
        | (none, w2) => (true, w2)
        | (some refs1, w2) =>
          let reply := (msg.UpdateJSON refs1).WithHeaders [("phase", "response")]
          (true, w2.write (Call.sendMessage reply) (ws.sendMessage reply w2.state).2)
  else (true, w)

/-! ## `repo/actions/dataset.go` -/

/-- `PinDataset` marks a dataset for retention in a store. -/
def PinDataset {σ : Type} (act : Repo σ) (ref : DatasetRef) (w : World σ) :
    Option Error × World σ :=
  match act.pinner with
  | some pinner =>
    let w1 := (pinner.pin (NewKey ref.Path) true w).2
    act.logEvent EventType.ETDsPinned ref w1
  | none => (some Error.ErrNotPinner, w)

/-- `UnpinDataset` unmarks a dataset for retention in a store. -/
def UnpinDataset {σ : Type} (act : Repo σ) (ref : DatasetRef) (w : World σ) :
    Option Error × World σ :=
  match act.pinner with
  | some pinner =>
    let w1 := (pinner.unpin (NewKey ref.Path) true w).2
    act.logEvent EventType.ETDsUnpinned ref w1
  | none => (some Error.ErrNotPinner, w)

/-- `CreateDataset` initializes a dataset from a dataset pointer and data file.  The
result is the named return pair `(ref, err)`. -/
def CreateDataset {σ : Type} (act : Repo σ) (name : String) (ds : Dataset) (data : File)
    (secrets : Secrets) (pin : Bool) (w : World σ) : (DatasetRef × Option Error) × World σ :=
  let userSet0 : Dataset :=
    { Commit := some {}, Meta := some {}, Structure := some {}, Transform := some {} }
  match act.profile w with
  | (.error e, w1) => (({}, some e), w1)
  | (.ok pro, w1) =>
    let userSet := act.Assign userSet0 ds
    let ds1 : Dataset :=
      match ds.Commit with
      | some c => { ds with Commit := some { c with Author := some { ID := pro.ID } } }
      | none => ds
    let transformed : Except Error (File × Dataset) × World σ :=
      match ds1.Transform with
      | some _ =>
        match act.execTransform ds1 data secrets w1 with
        | (.error e, w2) => (.error e, w2)
        | (.ok (data2, ds2), w2) => (.ok (data2, act.Assign ds2 userSet), w2)
      | none => (.ok (data, ds1), w1)
    match transformed with
    | (.error e, w2) => (({}, some e), w2)
    | (.ok (data2, ds2), w2) =>
      match dsfsCreateDataset act.Store ds2 data2 act.PrivateKey pin w2 with
      | (.error e, w3) => (({}, some e), w3)
      | (.ok path, w3) =>
        let w4 : World σ :=
          if ds2.PreviousPath ≠ "" ∧ ds2.PreviousPath ≠ "/" then
            (act.deleteRef { ProfileID := pro.ID, Peername := pro.Peername, Name := name,
                             Path := ds2.PreviousPath } w3).2
          else w3
        let ref : DatasetRef :=
          { ProfileID := pro.ID, Peername := pro.Peername, Name := name, Path := path.String }
        match act.putRef ref w4 with
        | (some e, w5) => ((ref, some e), w5)
        | (none, w5) =>
          match act.logEvent EventType.ETDsCreated ref w5 with
          | (some e, w6) => ((ref, some e), w6)
          | (none, w6) =>
            if pin ∧ act.pinner.isSome then
              ((ref, none), (act.logEvent EventType.ETDsPinned ref w6).2)
            else ((ref, none), w6)

/-- `AddDataset` fetches & pins a dataset to the store, adding it to the list of stored
refs.  The result is the ref as the call leaves it, and `err`. -/
def AddDataset {σ : Type} (act : Repo σ) (ref : DatasetRef) (w : World σ) :
    (DatasetRef × Option Error) × World σ :=
  let key := NewKey (TrimSuffix ref.Path ("/" ++ PackageFileDataset))
  let path := NewKey (key.String ++ "/" ++ PackageFileDataset)
  match act.fetcher with
  | none => ((ref, some (Error.errorf "this store cannot fetch from remote sources")), w)
  | some fetcher =>
    match fetcher.fetch SourceAny key w with
    | (.error e, w1) => ((ref, some (Error.wrapped "error fetching file: " e)), w1)
    | (.ok _, w1) =>
      match PinDataset act ref w1 with
      | (some e, w2) => ((ref, some (Error.wrapped "error pinning root key: " e)), w2)
      | (none, w2) =>
        match act.putRef ref w2 with
        | (some e, w3) =>
          ((ref, some (Error.wrapped "error putting dataset name in repo: " e)), w3)
        | (none, w3) =>
          match dsfsLoadDataset act.Store path w3 with
          | (.error _, w4) =>
            ((ref, some (Error.errorf
              ("error loading newly saved dataset path: " ++ path.String))), w4)
          | (.ok ds, w4) => (({ ref with Dataset := some ds.Encode }, none), w4)

/-- `ReadDataset` grabs a dataset from the store.  The result is the ref as the call
leaves it, and `err`. -/
def ReadDataset {σ : Type} (act : Repo σ) (ref : DatasetRef) (w : World σ) :
    (DatasetRef × Option Error) × World σ :=
  match act.Store with
  | some _ =>
    match dsfsLoadDataset act.Store (NewKey ref.Path) w with
    | (.error e, w1) => ((ref, some e), w1)
    | (.ok ds, w1) => (({ ref with Dataset := some ds.Encode }, none), w1)
  | none => ((ref, some Error.ErrNotFound), w)

/-- `RenameDataset` alters a dataset name. -/
def RenameDataset {σ : Type} (act : Repo σ) (a b : DatasetRef) (w : World σ) :
    Option Error × World σ :=
  match act.deleteRef a w with
  | (some e, w1) => (some e, w1)
  | (none, w1) =>
    match act.putRef b w1 with
    | (some e, w2) => (some e, w2)
    | (none, w2) => act.logEvent EventType.ETDsRenamed b w2

/-- `DeleteDataset` removes a dataset from the store. -/
def DeleteDataset {σ : Type} (act : Repo σ) (ref : DatasetRef) (w : World σ) :
    Option Error × World σ :=
  match act.profile w with
  | (.error e, w1) => (some e, w1)
  | (.ok pro, w1) =>
    match dsfsLoadDataset act.Store (NewKey ref.Path) w1 with
    | (.error e, w2) => (some e, w2)
    | (.ok ds, w2) =>
      match act.deleteRef ref w2 with
      | (some e, w3) => (some e, w3)
      | (none, w3) =>
        let w4 : World σ :=
          match act.Registry with
          | some rc =>
            -- ignore registry errors
            (rc.deleteDataset ref.Peername ref.Name { ds.Encode with Path := ref.Path }
              pro.PrivKey.GetPublic w3).2
          | none => w3
        match UnpinDataset act ref w4 with
        | (some e, w5) =>
          if e ≠ Error.ErrNotPinner then (some e, w5)
          else act.logEvent EventType.ETDsDeleted ref w5
        | (none, w5) => act.logEvent EventType.ETDsDeleted ref w5

/-! ## `repo/actions/registry.go` -/

/-- `dsParams` is a convenience func that collects params for registry dataset
interaction: the client, the public key, the dataset, and the ref as resolved (the
source updates it through the pointer). -/
def dsParams {σ : Type} (act : Repo σ) (ref : DatasetRef) (w : World σ) :
    Except Error (RegClient σ × PubKey × Dataset × DatasetRef) × World σ :=
  match act.Registry with
  | none => (.error (Error.errorf "no configured registry"), w)
  | some cli =>
    match act.PrivateKey with
    | none => (.error (Error.errorf "repo has no configured private key"), w)
    | some pk =>
      match act.canonicalize ref w with
      | (.error e, w1) => (.error (Error.wrapped "canonicalizing dataset reference: " e), w1)
      | (.ok ref1, w1) =>
        let resolved : Except Error DatasetRef × World σ :=
          if ref1.Path = "" then act.getRef ref1 w1 else (.ok ref1, w1)
        match resolved with
        | (.error e, w2) => (.error e, w2)
        | (.ok ref2, w2) =>
          match dsfsLoadDataset act.Store (NewKey ref2.Path) w2 with
          | (.error e, w3) => (.error e, w3)
          | (.ok ds, w3) => (.ok (cli, pk.GetPublic, ds, ref2), w3)

/-- The error of a failed permission check. -/
def peernameMismatch (mine theirs : String) : Error :=
  Error.errorf ("peername mismatch. \x27" ++ mine
    ++ "\x27 doesn\x27t have permission to publish a dataset created by \x27" ++ theirs ++ "\x27")

/-- `permission` returns an error if a repo's configured user does not have the right
to publish ref to a registry. -/
def permission {σ : Type} (act : Repo σ) (ref : DatasetRef) (w : World σ) :
    Option Error × World σ :=
  match act.profile w with
  | (.error e, w1) => (some e, w1)
  | (.ok pro, w1) =>
    if pro.Peername ≠ ref.Peername then (some (peernameMismatch pro.Peername ref.Peername), w1)
    else (none, w1)

/-- `Publish` a dataset to a repo's specified registry. -/
def Publish {σ : Type} (act : Repo σ) (ref : DatasetRef) (w : World σ) :
    Option Error × World σ :=
  match dsParams act ref w with
  | (.error e, w1) => (some e, w1)
  | (.ok (cli, pub, ds, ref1), w1) =>
    match permission act ref1 w1 with
    | (some e, w2) => (some e, w2)
    | (none, w2) => cli.putDataset ref1.Peername ref1.Name ds.Encode pub w2

/-- `Unpublish` a dataset from a repo's specified registry. -/
def Unpublish {σ : Type} (act : Repo σ) (ref : DatasetRef) (w : World σ) :
    Option Error × World σ :=
  match dsParams act ref w with
  | (.error e, w1) => (some e, w1)
  | (.ok (cli, pub, ds, ref1), w1) =>
    match permission act ref1 w1 with
    | (some e, w2) => (some e, w2)
    | (none, w2) => cli.deleteDataset ref1.Peername ref1.Name ds.Encode pub w2

/-! ## Reading the call log -/

/-- The calls made since the log held `before`. -/
def newCalls (before after : List Call) : List Call := after.drop before.length

/-- The events handed to the event log by the calls `cs`, in order. -/
def eventsLogged (cs : List Call) : List (EventType × DatasetRef) :=
  cs.filterMap (fun c => match c with
    | Call.LogEvent t ref => some (t, ref)
    | _ => none)

/-- Is `c` a call that changes the reference store, the registry, the pin set or the
event log? -/
def Call.mutates : Call → Bool
  | Call.PutRef _ => true
  | Call.DeleteRef _ => true
  | Call.LogEvent _ _ => true
  | Call.Pin _ _ => true
  | Call.Unpin _ _ => true
  | Call.RegistryPut _ _ _ _ => true
  | Call.RegistryDelete _ _ _ _ => true
  | _ => false

/-- Is `c` a call on the registry client? -/
def Call.isRegistry : Call → Bool
  | Call.RegistryPut _ _ _ _ => true
  | Call.RegistryDelete _ _ _ _ => true
  | _ => false

/-- Is `c` a call on the p2p transport? -/
def Call.isTransport : Call → Bool
  | Call.NewJSONBodyMessage _ => true
  | Call.SendMessage _ _ => true
  | Call.sendMessage _ => true
  | _ => false

/-- The refs carried by a message body. -/
def Body.carried : Body → List DatasetRef
  | Body.refs l => l
  | _ => []

/-- The messages sent back on the stream by the calls `cs`. -/
def responsesSent (cs : List Call) : List Message :=
  cs.filterMap (fun c => match c with
    | Call.sendMessage m => some m
    | _ => none)

/-! ## An in-memory repo

A small concrete implementation of the collaborator interfaces, used to run the
embedded code on explicit inputs. -/

/-- The state of the in-memory collaborators. -/
structure MemState where
  refs : List DatasetRef := []
  events : List (EventType × DatasetRef) := []
  content : List (Key × Dataset) := []
  pins : List Key := []
  published : List (String × String) := []
  sent : List Message := []
deriving DecidableEq, Repr

/-- What the in-memory collaborators are configured to be and do. -/
structure MemConfig where
  profile : Except Error Profile
  privateKey : Option PrivKey := none
  hasStore : Bool := true
  canPin : Bool := true
  canFetch : Bool := true
  hasRegistry : Bool := false
  pinError : Option Error := none
  unpinError : Option Error := none
  logError : EventType → Option Error := fun _ => none
  remote : List (Key × Dataset) := []

/-- Do two refs name the same dataset (same peername and name)? -/
def sameName (a b : DatasetRef) : Bool := a.Peername == b.Peername && a.Name == b.Name

/-- Modelled from the spec: the Reference Store's `listRefs(limit, offset) -> []ref`
(its implementations are not among the sources): `limit` refs "starting at Offset". -/
def memReferences (limit offset : Int) (s : MemState) : Except Error (List DatasetRef) :=
  .ok ((s.refs.drop offset.toNat).take limit.toNat)

/-- Modelled from the spec: the Reference Store's `putRef(ref)` (its implementations are
not among the sources): a "name→pointer mapping" in which "at most one live ref may exist
per (Peername, Name) pair". -/
def memPutRef (ref : DatasetRef) (s : MemState) : Option Error × MemState :=
  (none, { s with refs := s.refs.filter (fun r => !sameName r ref) ++ [ref] })

/-- Modelled from the spec: the Reference Store's `deleteRef(ref)` (its implementations
are not among the sources): the mapping for the ref's `(Peername, Name)` is removed; a
"missing ref" is a NotFound error. -/
def memDeleteRef (ref : DatasetRef) (s : MemState) : Option Error × MemState :=
  if s.refs.any (fun r => sameName r ref) then
    (none, { s with refs := s.refs.filter (fun r => !sameName r ref) })
  else (some Error.ErrNotFound, s)

/-- Modelled from the spec: the Reference Store's `getRef(partialRef) -> ref` (its
implementations are not among the sources). -/
def memGetRef (ref : DatasetRef) (s : MemState) : Except Error DatasetRef :=
  match s.refs.find? (fun r => sameName r ref) with
  | some r => .ok r
  | none => .error Error.ErrNotFound

/-- Modelled from the spec: canonicalization (`repo.CanonicalizeDatasetRef`, not among
the sources) "resolves a partial ref — e.g., name only — into its full, current path;
fails if unresolvable". -/
def memCanonicalize (ref : DatasetRef) (s : MemState) : Except Error DatasetRef :=
  if ref.Path ≠ "" then .ok ref
  else
    match s.refs.find? (fun r => r.Name == ref.Name) with
    | some r => .ok r
    | none => .error Error.ErrNotFound

/-- Modelled from the spec: the Event Log's `logEvent(kind, ref)` (its implementations
are not among the sources): an "append-only record"; a configured failure appends
nothing. -/
def memLogEvent (cfg : MemConfig) (t : EventType) (ref : DatasetRef) (s : MemState) :
    Option Error × MemState :=
  match cfg.logError t with
  | some e => (some e, s)
  | none => (none, { s with events := s.events ++ [(t, ref)] })

/-- The key a dataset is stored under: the manifest file name is not part of it. -/
def contentKey (k : Key) : Key := ⟨TrimSuffix k.string ("/" ++ PackageFileDataset)⟩

/-- Load from the in-memory content store. -/
def memLoad (k : Key) (s : MemState) : Except Error Dataset :=
  match s.content.find? (fun kv => kv.1 == contentKey k) with
  | some kv => .ok kv.2
  | none => .error Error.ErrNotFound

/-- The data bytes as they appear in an address: a slash is written as an underscore. -/
def sanitize (cs : List Char) : List Char := cs.map (fun c => if c = '/' then '_' else c)

/-- The address the in-memory content store gives to content with the data `data`:
`/map/Q` followed by the data bytes, a clean key of two segments. -/
def memAddress (data : File) : Key :=
  ⟨String.mk ('/' :: 'm' :: 'a' :: 'p' :: '/' :: 'Q' :: sanitize data.data)⟩

/-- Store in the in-memory content store; the address is taken from the data bytes. -/
def memCreate (cfg : MemConfig) (ds : Dataset) (data : File) (_pk : Option PrivKey) (pin : Bool)
    (s : MemState) : Except Error Key × MemState :=
  let k : Key := memAddress data
  (.ok k, { s with content := (k, ds) :: s.content,
                   pins := if pin ∧ cfg.canPin then k :: s.pins else s.pins })

/-- The in-memory pinner: a configured error is returned and nothing changes. -/
def memPinner (cfg : MemConfig) : Pinner MemState where
  Pin := fun k _ s =>
    match cfg.pinError with
    | some e => (some e, s)
    | none => (none, { s with pins := k :: s.pins })
  Unpin := fun k _ s =>
    match cfg.unpinError with
    | some e => (some e, s)
    | none => (none, { s with pins := s.pins.filter (fun p => p != k) })

/-- The in-memory fetcher: copies the dataset from the configured remote. -/
def memFetcher (cfg : MemConfig) : Fetcher MemState where
  Fetch := fun _ k s =>
    match cfg.remote.find? (fun kv => kv.1 == contentKey k) with
    | some kv => (.ok "", { s with content := kv :: s.content })
    | none => (.error Error.ErrNotFound, s)

/-- The in-memory content store. -/
def memStore (cfg : MemConfig) : Filestore MemState where
  LoadDataset := memLoad
  CreateDataset := memCreate cfg
  asFetcher := if cfg.canFetch then some (memFetcher cfg) else none
  asPinner := if cfg.canPin then some (memPinner cfg) else none

/-- The in-memory registry client. -/
def memRegistry : RegClient MemState where
  PutDataset := fun peername name _ _ s =>
    (none, { s with published := (peername, name) :: s.published })
  DeleteDataset := fun peername name _ _ s =>
    (none, { s with published := s.published.filter (fun p => p != (peername, name)) })

/-- `Dataset.Assign` for the in-memory repo: fields set in `b` replace those of `a`. -/
def memAssign (a b : Dataset) : Dataset :=
  { Commit := b.Commit.orElse (fun _ => a.Commit),
    Meta := b.Meta.orElse (fun _ => a.Meta),
    Structure := b.Structure.orElse (fun _ => a.Structure),
    Transform := b.Transform.orElse (fun _ => a.Transform),
    PreviousPath := if b.PreviousPath ≠ "" then b.PreviousPath else a.PreviousPath }

/-- The in-memory repo. -/
def memRepo (cfg : MemConfig) : Repo MemState where
  Store := if cfg.hasStore then some (memStore cfg) else none
  Profile := fun _ => cfg.profile
  PrivateKey := cfg.privateKey
  Registry := if cfg.hasRegistry then some memRegistry else none
  References := memReferences
  GetRef := memGetRef
  PutRef := memPutRef
  DeleteRef := memDeleteRef
  LogEvent := memLogEvent cfg
  CanonicalizeDatasetRef := memCanonicalize
  ExecTransform := fun ds data _ s => (.ok (data, ds), s)
  Assign := memAssign

/-- The in-memory stream: sent messages are kept. -/
def memStream : WrappedStream MemState where
  sendMessage := fun m s => (none, { s with sent := s.sent ++ [m] })

/-- An in-memory node; its transport has no peer to reach. -/
def memNode (cfg : MemConfig) (id : PeerID) (online : Bool) : QriNode MemState where
  ID := id
  Online := online
  Repo := memRepo cfg
  NewJSONBodyMessage := fun _ t p => .ok { MsgType := t, Body := Body.params p }
  SendMessage := fun _ _ s => (.error (Error.errorf "no route to peer"), s)

/-- A world with the given state and an empty call log. -/
def World.start {σ : Type} (s : σ) : World σ := { state := s, calls := [] }

/-- The profile used in the examples. -/
def alice : Profile := { ID := "QmAlice", Peername := "alice", PrivKey := { GetPublic := "pubA" } }

/-- The configuration used in the examples: a pin-capable, fetch-capable store. -/
def aliceConfig : MemConfig := { profile := .ok alice, privateKey := some alice.PrivKey }

/-! ## Example inputs -/

/-- A store that cannot pin. -/
def nonPinner : MemConfig := { aliceConfig with canPin := false }

/-- A repo without an active profile. -/
def noProfile : MemConfig := { profile := .error (Error.errorf "no active profile") }

/-- A pin-capable store whose unpin operation fails. -/
def unpinFails : MemConfig :=
  { aliceConfig with unpinError := some (Error.errorf "unpin failed") }

/-- A fetch-capable, pin-capable store whose pin operation fails; the remote holds the
dataset asked for. -/
def pinFails : MemConfig :=
  { aliceConfig with pinError := some (Error.errorf "pin failed"),
                     remote := [(⟨"/map/schools.csv"⟩, {})] }

/-- A repo with a registry client and a private key. -/
def withRegistry : MemConfig := { aliceConfig with hasRegistry := true }

/-- The ref of the dataset "schools" created by alice from the data `schools.csv`. -/
def schoolsRef : DatasetRef :=
  { ProfileID := "QmAlice", Peername := "alice", Name := "schools", Path := "/map/schools.csv" }

/-- A ref owned by another peer. -/
def bobsRef : DatasetRef :=
  { ProfileID := "QmBob", Peername := "bob", Name := "trees", Path := "/map/trees.csv" }

/-- A state in which alice holds the dataset "schools". -/
def schoolsStored : MemState :=
  { refs := [schoolsRef], content := [(⟨"/map/schools.csv"⟩, {})],
    pins := [⟨"/map/schools.csv"⟩] }

/-- A reference store that does not page: every ref from `offset` on is returned,
whatever the limit. -/
def unpagedRepo (cfg : MemConfig) : Repo MemState :=
  { memRepo cfg with References := fun _ offset s => .ok (s.refs.drop offset.toNat) }

/-- `k` refs with different names, all pointing at the same content. -/
def manyRefs (k : Nat) : List DatasetRef :=
  (List.range k).map (fun i =>
    { ProfileID := "QmAlice", Peername := "alice",
      Name := String.mk (List.replicate (i + 1) 'd'), Path := "/map/data" })

/-- A state holding 31 refs whose content loads. -/
def crowded : MemState := { refs := manyRefs 31, content := [(⟨"/map/data"⟩, {})] }

/-- A node over the store that does not page. -/
def crowdedNode : QriNode MemState :=
  { memNode aliceConfig "QmNode" true with Repo := unpagedRepo aliceConfig }

/-- A `list_datasets` request. -/
def listRequest (limit offset : Int) : Message :=
  { MsgType := MtDatasets, Headers := [("phase", "request"), ("RPC", "false")],
    Body := Body.params { Limit := limit, Offset := offset } }

/-- The dataset the loop of `handleDatasetsList` attaches to a ref whose content loaded
as `ds` (`refs[i].Dataset = ds.Encode()` and the lines after it): the encoded form, with
the schema set to the empty object when the request is RPC and the structure and its
schema are both non-nil. -/
def attachedPod (rpc : Bool) (ds : Dataset) : DatasetPod :=
  match ds.Encode.Structure with
  | some st =>
    if rpc ∧ st.Schema ≠ none then
      { ds.Encode with Structure := some { st with Schema := some [] } }
    else ds.Encode
  | none => ds.Encode

/-- A state holding three datasets: one without a structure, one whose structure has no
schema, one whose structure has a schema. -/
def threeShapes : MemState :=
  { refs := [ { Peername := "alice", Name := "bare", Path := "/map/bare" },
              { Peername := "alice", Name := "plain", Path := "/map/plain" },
              { Peername := "alice", Name := "typed", Path := "/map/typed" } ],
    content := [ (⟨"/map/bare"⟩, {}),
                 (⟨"/map/plain"⟩, { Structure := some { Format := "csv" } }),
                 (⟨"/map/typed"⟩,
                  { Structure := some { Format := "csv", Schema := some [("type", "array")] } }) ] }

/-- A `list_datasets` request whose body sets the RPC flag and whose `RPC` header is
`flag`. -/
def rpcRequest (flag : String) : Message :=
  { MsgType := MtDatasets, Headers := [("phase", "request"), ("RPC", flag)],
    Body := Body.params { Limit := 10, Offset := 0, RPC := true } }

/-- The node that answers the requests of the examples. -/
def listNode : QriNode MemState := memNode aliceConfig "QmNode" true

/-- The first response sent back during a run of `handleDatasetsList` on `threeShapes`. -/
def firstReply (msg : Message) : Message :=
  (responsesSent (handleDatasetsList listNode memStream msg
    (World.start threeShapes)).2.calls).headD {}

/-- The overlay `userSet` starts from in `CreateDataset`: every structural field
instantiated. -/
def userSkeleton : Dataset :=
  { Commit := some {}, Meta := some {}, Structure := some {}, Transform := some {} }

/-- The dataset once `CreateDataset` has added the author: `ds.Commit.Author` is set to
the profile's ID when a commit is present. -/
def stampAuthor (ds : Dataset) (pro : Profile) : Dataset :=
  match ds.Commit with
  | some c => { ds with Commit := some { c with Author := some { ID := pro.ID } } }
  | none => ds

/-- The ref of the previous version that `CreateDataset` retires. -/
def previousRef (pro : Profile) (name : String) (d : Dataset) : DatasetRef :=
  { ProfileID := pro.ID, Peername := pro.Peername, Name := name, Path := d.PreviousPath }

/-- The dataset `CreateDataset` hands to the content store on the in-memory repo, whose
transform changes nothing: the author is added, and with a transform present the user's
fields are applied again. -/
def memStored (ds : Dataset) (pro : Profile) : Dataset :=
  match ds.Transform with
  | none => stampAuthor ds pro
  | some _ => memAssign (stampAuthor ds pro) (memAssign userSkeleton ds)

/-- An event log that refuses Pinned events. -/
def pinnedRefused : MemConfig :=
  { aliceConfig with
    logError := fun t =>
      if t = EventType.ETDsPinned then some (Error.errorf "event log is full") else none }

/-- A repo whose content store answers a put with the zero key. -/
def zeroKeyRepo : Repo MemState :=
  { memRepo aliceConfig with
    Store := some
      { memStore aliceConfig with
        CreateDataset := fun ds _ _ _ s =>
          (.ok ⟨""⟩, { s with content := (⟨""⟩, ds) :: s.content }) } }

/-- A dataset with a commit, a title and a schema. -/
def schoolsDataset : Dataset :=
  { Commit := some { Title := "initial commit" },
    Meta := some { Title := "Schools" },
    Structure := some { Format := "csv", Schema := some [("type", "array")] } }

/-- What the store holds for `schoolsDataset` once alice has created it. -/
def schoolsDatasetStored : Dataset :=
  { Commit := some { Author := some { ID := "QmAlice" }, Title := "initial commit" },
    Meta := some { Title := "Schools" },
    Structure := some { Format := "csv", Schema := some [("type", "array")] } }

/-- The ref `CreateDataset` returns to alice for "schools" with the data `schools.csv`. -/
def schoolsCreated : DatasetRef :=
  { ProfileID := "QmAlice", Peername := "alice", Name := "schools",
    Path := "/map/Qschools.csv" }

/-! ## Lemmas on the call log -/

theorem newCalls_append (a l : List Call) : newCalls a (a ++ l) = l := by
  simp [newCalls]

theorem eventsLogged_append (a b : List Call) :
    eventsLogged (a ++ b) = eventsLogged a ++ eventsLogged b := by
  simp [eventsLogged]

@[simp] theorem read_calls {σ : Type} (w : World σ) (c : Call) :
    (w.read c).calls = w.calls ++ [c] := rfl

@[simp] theorem read_state {σ : Type} (w : World σ) (c : Call) : (w.read c).state = w.state := rfl

@[simp] theorem write_calls {σ : Type} (w : World σ) (c : Call) (s : σ) :
    (w.write c s).calls = w.calls ++ [c] := rfl

@[simp] theorem write_state {σ : Type} (w : World σ) (c : Call) (s : σ) :
    (w.write c s).state = s := rfl

theorem dsParams_reads {σ : Type} (act : Repo σ) (ref : DatasetRef) (w : World σ) :
    (dsParams act ref w).2.state = w.state
    ∧ ∃ l, (dsParams act ref w).2.calls = w.calls ++ l
        ∧ ∀ c ∈ l, c.isRegistry = false ∧ c ≠ Call.Profile := by
  unfold dsParams
  cases act.Registry with
  | none => exact ⟨rfl, [], by simp⟩
  | some cli =>
    cases act.PrivateKey with
    | none => exact ⟨rfl, [], by simp⟩
    | some pk =>
      simp only [Repo.canonicalize]
      cases act.CanonicalizeDatasetRef ref w.state with
      | error e => exact ⟨rfl, [Call.CanonicalizeDatasetRef ref], rfl, by simp [Call.isRegistry]⟩
      | ok ref1 =>
        simp only
        by_cases hpath : ref1.Path = ""
        · simp only [hpath, if_true, Repo.getRef]
          cases act.GetRef ref1 (w.read (Call.CanonicalizeDatasetRef ref)).state with
          | error e =>
            exact ⟨rfl, [Call.CanonicalizeDatasetRef ref, Call.GetRef ref1], by simp,
              by simp [Call.isRegistry]⟩
          | ok ref2 =>
            simp only
            cases hs : act.Store with
            | none =>
              exact ⟨rfl, [Call.CanonicalizeDatasetRef ref, Call.GetRef ref1],
                by simp [dsfsLoadDataset], by simp [Call.isRegistry]⟩
            | some fs =>
              simp only [dsfsLoadDataset]
              split <;>
                (rename_i heq
                 simp only [Prod.mk.injEq] at heq
                 obtain ⟨_, rfl⟩ := heq
                 exact ⟨rfl, [Call.CanonicalizeDatasetRef ref, Call.GetRef ref1,
                   Call.LoadDataset (NewKey ref2.Path)], by simp, by simp [Call.isRegistry]⟩)
        · simp only [hpath, if_false]
          cases hs : act.Store with
          | none =>
            exact ⟨rfl, [Call.CanonicalizeDatasetRef ref], by simp [dsfsLoadDataset],
              by simp [Call.isRegistry]⟩
          | some fs =>
            simp only [dsfsLoadDataset]
            split <;>
              (rename_i heq
               simp only [Prod.mk.injEq] at heq
               obtain ⟨_, rfl⟩ := heq
               exact ⟨rfl, [Call.CanonicalizeDatasetRef ref, Call.LoadDataset (NewKey ref1.Path)],
                 by simp, by simp [Call.isRegistry]⟩)

/-! ## The in-memory repo: what a delete changes -/

theorem memLogEvent_frame (cfg : MemConfig) (t : EventType) (ref : DatasetRef) (s : MemState) :
    (memLogEvent cfg t ref s).2.content = s.content
    ∧ (memLogEvent cfg t ref s).2.refs = s.refs := by
  unfold memLogEvent
  cases cfg.logError t <;> exact ⟨rfl, rfl⟩

theorem memUnpin_frame (cfg : MemConfig) (k : Key) (b : Bool) (s : MemState) :
    ((memPinner cfg).Unpin k b s).2.content = s.content
    ∧ ((memPinner cfg).Unpin k b s).2.refs = s.refs := by
  simp only [memPinner]
  cases cfg.unpinError <;> exact ⟨rfl, rfl⟩

theorem memUnpinDataset_frame (cfg : MemConfig) (ref : DatasetRef) (w : World MemState) :
    (UnpinDataset (memRepo cfg) ref w).2.state.content = w.state.content
    ∧ (UnpinDataset (memRepo cfg) ref w).2.state.refs = w.state.refs := by
  unfold UnpinDataset
  cases hpin : (memRepo cfg).pinner with
  | none => exact ⟨rfl, rfl⟩
  | some p =>
    have hp : p = memPinner cfg := by
      simp only [Repo.pinner, memRepo, memStore] at hpin
      by_cases h1 : cfg.hasStore = true <;> by_cases h2 : cfg.canPin = true <;>
        simp [h1, h2] at hpin
      exact hpin.symm
    subst hp
    simp only [Repo.logEvent, Pinner.unpin, write_state, memRepo]
    obtain ⟨h1, h2⟩ := memLogEvent_frame cfg EventType.ETDsUnpinned ref
      ((memPinner cfg).Unpin (NewKey ref.Path) true w.state).2
    obtain ⟨h3, h4⟩ := memUnpin_frame cfg (NewKey ref.Path) true w.state
    exact ⟨h1.trans h3, h2.trans h4⟩

theorem memDeleteRef_frame (ref : DatasetRef) (s : MemState) :
    (memDeleteRef ref s).2.content = s.content
    ∧ ((memDeleteRef ref s).1 = none →
        ∀ x ∈ (memDeleteRef ref s).2.refs, sameName x ref = false) := by
  unfold memDeleteRef
  split
  · refine ⟨rfl, fun _ x hx => ?_⟩
    simp only [List.mem_filter, Bool.not_eq_true'] at hx
    exact hx.2
  · exact ⟨rfl, fun h => by simp at h⟩

theorem memDeleteDataset_effect (cfg : MemConfig) (ref : DatasetRef) (w w2 : World MemState)
    (r : Option Error) (h : DeleteDataset (memRepo cfg) ref w = (r, w2)) :
    w2.state.content = w.state.content
    ∧ (r = none →
        cfg.hasStore = true
        ∧ (∃ ds, memLoad (NewKey ref.Path) w.state = .ok ds)
        ∧ ∀ x ∈ w2.state.refs, sameName x ref = false) := by
  unfold DeleteDataset at h
  simp only [Repo.profile] at h
  split at h
  · rename_i e w1 hpro
    simp only [Prod.mk.injEq] at h hpro
    obtain ⟨rfl, rfl⟩ := h
    obtain ⟨_, rfl⟩ := hpro
    exact ⟨rfl, fun h => by simp at h⟩
  · rename_i pro w1 hpro
    simp only [Prod.mk.injEq] at hpro
    obtain ⟨_, rfl⟩ := hpro
    split at h
    · rename_i e w2' hload
      simp only [Prod.mk.injEq] at h
      obtain ⟨rfl, rfl⟩ := h
      refine ⟨?_, fun h => by simp at h⟩
      have := congrArg (fun x => x.2.state) hload
      simp only [dsfsLoadDataset] at this
      split at this <;> simp at this <;> rw [← this]
    · rename_i ds w2' hload
      have hst : cfg.hasStore = true ∧ memLoad (NewKey ref.Path) w.state = .ok ds
          ∧ w2'.state = w.state := by
        simp only [dsfsLoadDataset, memRepo] at hload
        by_cases h1 : cfg.hasStore = true
        · simp only [h1, if_true, Prod.mk.injEq, memStore, read_state] at hload
          exact ⟨h1, hload.1, by rw [← hload.2]; rfl⟩
        · simp [h1] at hload
      obtain ⟨hs1, hs2, hs3⟩ := hst
      split at h
      · rename_i e w3 hdel
        simp only [Prod.mk.injEq] at h
        obtain ⟨rfl, rfl⟩ := h
        refine ⟨?_, fun h => by simp at h⟩
        have := congrArg (fun x => x.2.state) hdel
        simp only [Repo.deleteRef, write_state, memRepo] at this
        rw [← this, (memDeleteRef_frame ref w2'.state).1, hs3]
      · rename_i w3 hdel
        have hd1 := congrArg (fun x => x.1) hdel
        have hd2 := congrArg (fun x => x.2.state) hdel
        simp only [Repo.deleteRef, write_state, memRepo] at hd1 hd2
        obtain ⟨hf1, hf2⟩ := memDeleteRef_frame ref w2'.state
        have hc3 : w3.state.content = w.state.content := by rw [← hd2, hf1, hs3]
        have hr3 : ∀ x ∈ w3.state.refs, sameName x ref = false := by
          rw [← hd2]; exact hf2 hd1
        rw [show (memRepo cfg).Registry = (if cfg.hasRegistry then some memRegistry else none)
          from rfl] at h
        have hlog : ∀ w5 : World MemState,
            ((memRepo cfg).logEvent EventType.ETDsDeleted ref w5).2.state.content = w5.state.content
            ∧ ((memRepo cfg).logEvent EventType.ETDsDeleted ref w5).2.state.refs = w5.state.refs :=
          fun w5 => memLogEvent_frame cfg EventType.ETDsDeleted ref w5.state
        have hfin : w2.state.content = w3.state.content ∧ w2.state.refs = w3.state.refs := by
          cases hreg : cfg.hasRegistry
          all_goals simp only [hreg, if_true, Bool.false_eq_true, if_false] at h
          all_goals split at h
          all_goals rename_i w5 hun
          all_goals have hu1 := congrArg (fun x => x.2.state.content) hun
          all_goals have hu2 := congrArg (fun x => x.2.state.refs) hun
          all_goals simp only [(memUnpinDataset_frame cfg ref _).1,
            (memUnpinDataset_frame cfg ref _).2] at hu1 hu2
          all_goals try simp only [RegClient.deleteDataset, write_state, memRegistry] at hu1 hu2
          all_goals try split at h
          all_goals have h2 := congrArg (fun x => x.2) h
          all_goals simp only at h2
          all_goals rw [← h2]
          all_goals first
            | exact ⟨hu1.symm, hu2.symm⟩
            | exact ⟨(hlog w5).1.trans hu1.symm, (hlog w5).2.trans hu2.symm⟩
        refine ⟨by rw [hfin.1, hc3], fun _ => ⟨hs1, ⟨ds, hs2⟩, ?_⟩⟩
        rw [hfin.2]
        exact hr3

/-! ## The list protocol -/

/-- C1 (the code at a failing input): a request with `Limit = 100` is clamped to
`listMax = 30`, but when the reference store returns 31 refs the response that is sent
carries all 31 of them: the loop stops attaching datasets at 30 and the list itself is
never cut. -/
theorem handleDatasetsList_sends_more_than_listMax :
    (responsesSent (handleDatasetsList crowdedNode memStream (listRequest 100 0)
        (World.start crowded)).2.calls).map (fun m => m.Body.carried.length) = [31]
    ∧ (responsesSent (handleDatasetsList crowdedNode memStream (listRequest 100 0)
        (World.start crowded)).2.calls).map
          (fun m => (m.Body.carried.filter (fun r => r.Dataset.isSome)).length) = [30] := by
  decide

/-- C2: a request with `Limit = 0` or `Limit > listMax` is handled exactly as the same
request with `Limit = listMax`: the same `hangup`, the same final state, and the same
calls on the collaborators (the query to the reference store, the datasets loaded, the
response sent, or the same early return). -/
theorem handleDatasetsList_limit_clamp {σ : Type} (n : QriNode σ) (ws : WrappedStream σ)
    (msg : Message) (p : DatasetsListParams) (w : World σ)
    (hlim : p.Limit = 0 ∨ p.Limit > listMax) :
    handleDatasetsList n ws { msg with Body := Body.params p } w
      = handleDatasetsList n ws { msg with Body := Body.params { p with Limit := listMax } } w := by
  have h1 : ∀ b k, Message.Header { msg with Body := b } k = msg.Header k := fun _ _ => rfl
  have h2 : ∀ b refs, Message.UpdateJSON { msg with Body := b } refs = msg.UpdateJSON refs :=
    fun _ _ => rfl
  simp only [handleDatasetsList, h1, h2, decodeParams, hlim, if_true]
  simp [listMax]

/-- C2 at `Limit = 100`. -/
theorem handleDatasetsList_limit_clamp_witness :
    ((100 : Int) = 0 ∨ (100 : Int) > listMax)
    ∧ handleDatasetsList (memNode aliceConfig "QmNode" true) memStream
        { listRequest 100 0 with Body := Body.params { Limit := 100, Offset := 0 } }
        (World.start crowded)
      = handleDatasetsList (memNode aliceConfig "QmNode" true) memStream
        { listRequest 100 0 with
          Body := Body.params { ({ Limit := 100, Offset := 0 } : DatasetsListParams) with
                                Limit := listMax } }
        (World.start crowded) :=
  ⟨by decide,
   handleDatasetsList_limit_clamp _ _ (listRequest 100 0) { Limit := 100, Offset := 0 } _
     (by decide)⟩

/-- C9: `RequestDatasetsList` with the node's own ID returns exactly the result of the
local reference store's `References(Limit, Offset)`, leaves the state as it is, and makes
that one call only: no message is built or sent, online or not. -/
theorem RequestDatasetsList_self {σ : Type} (n : QriNode σ) (pid : PeerID)
    (p : DatasetsListParams) (w : World σ) (h : pid = n.ID) :
    (RequestDatasetsList n pid p w).1 = n.Repo.References p.Limit p.Offset w.state
    ∧ (RequestDatasetsList n pid p w).2.state = w.state
    ∧ newCalls w.calls (RequestDatasetsList n pid p w).2.calls
        = [Call.References p.Limit p.Offset]
    ∧ ∀ c ∈ newCalls w.calls (RequestDatasetsList n pid p w).2.calls, c.isTransport = false := by
  simp [RequestDatasetsList, h, Repo.references, World.read, newCalls_append, Call.isTransport]

/-- C9 on an offline in-memory node asked for its own list. -/
theorem RequestDatasetsList_self_witness :
    (RequestDatasetsList (memNode aliceConfig "QmNode" false) "QmNode"
        { Limit := 10, Offset := 0 } (World.start schoolsStored)).1
      = (memNode aliceConfig "QmNode" false).Repo.References 10 0 schoolsStored
    ∧ (RequestDatasetsList (memNode aliceConfig "QmNode" false) "QmNode"
        { Limit := 10, Offset := 0 } (World.start schoolsStored)).2.state = schoolsStored
    ∧ newCalls [] (RequestDatasetsList (memNode aliceConfig "QmNode" false) "QmNode"
        { Limit := 10, Offset := 0 } (World.start schoolsStored)).2.calls
        = [Call.References 10 0]
    ∧ ∀ c ∈ newCalls [] (RequestDatasetsList (memNode aliceConfig "QmNode" false) "QmNode"
        { Limit := 10, Offset := 0 } (World.start schoolsStored)).2.calls,
        c.isTransport = false :=
  RequestDatasetsList_self (memNode aliceConfig "QmNode" false) "QmNode"
    { Limit := 10, Offset := 0 } (World.start schoolsStored) rfl

/-! ## What a successful create does -/

theorem CreateDataset_trace {σ : Type} (act : Repo σ) (name : String) (ds : Dataset)
    (data : File) (secrets : Secrets) (pin : Bool) (w w' : World σ) (ref : DatasetRef)
    (h : CreateDataset act name ds data secrets pin w = ((ref, none), w')) :
    ∃ pro fs d f s path sput s5 s6,
      act.Profile w.state = .ok pro
      ∧ act.Store = some fs
      ∧ ((ds.Transform = none ∧ d = stampAuthor ds pro ∧ f = data ∧ s = w.state)
          ∨ (ds.Transform ≠ none ∧ ∃ dT,
              act.ExecTransform (stampAuthor ds pro) data secrets w.state = (.ok (f, dT), s)
              ∧ d = act.Assign dT (act.Assign userSkeleton ds)))
      ∧ fs.CreateDataset d f act.PrivateKey pin s = (.ok path, sput)
      ∧ ref = { ProfileID := pro.ID, Peername := pro.Peername, Name := name,
                Path := path.String }
      ∧ act.PutRef ref
          (if d.PreviousPath ≠ "" ∧ d.PreviousPath ≠ "/" then
            (act.DeleteRef (previousRef pro name d) sput).2 else sput) = (none, s5)
      ∧ act.LogEvent EventType.ETDsCreated ref s5 = (none, s6)
      ∧ w'.state = (if pin ∧ act.pinner.isSome then
          (act.LogEvent EventType.ETDsPinned ref s6).2 else s6)
      ∧ newCalls w.calls w'.calls =
          Call.Profile ::
            ((if ds.Transform = none then [] else [Call.ExecTransform (stampAuthor ds pro) data])
              ++ Call.CreateDataset d f pin ::
                ((if d.PreviousPath ≠ "" ∧ d.PreviousPath ≠ "/" then
                    [Call.DeleteRef (previousRef pro name d)] else [])
                  ++ Call.PutRef ref :: Call.LogEvent EventType.ETDsCreated ref ::
                    (if pin ∧ act.pinner.isSome then
                      [Call.LogEvent EventType.ETDsPinned ref] else []))) := by
  unfold CreateDataset at h
  simp only [Repo.profile] at h
  cases hp : act.Profile w.state with
  | error e => simp [hp] at h
  | ok pro =>
    simp only [hp] at h
    have hstamp : (match ds.Commit with
        | some c => ({ ds with Commit := some { c with Author := some { ID := pro.ID } } } : Dataset)
        | none => ds) = stampAuthor ds pro := rfl
    have hskel : ({ Commit := some { Author := none, Title := "" }, Meta := some { Title := "" },
                    Structure := some { Format := "", Schema := none },
                    Transform := some { ScriptPath := "" }, PreviousPath := "" } : Dataset)
        = userSkeleton := rfl
    have hstampT : (stampAuthor ds pro).Transform = ds.Transform := by
      unfold stampAuthor; cases ds.Commit <;> rfl
    simp only [hstamp, hskel, hstampT] at h
    split at h
    · simp at h
    · rename_i f d w2 htr
      have hstep : ((ds.Transform = none ∧ d = stampAuthor ds pro ∧ f = data
              ∧ w2.state = w.state)
            ∨ (ds.Transform ≠ none ∧ ∃ dT,
                act.ExecTransform (stampAuthor ds pro) data secrets w.state
                  = (.ok (f, dT), w2.state)
                ∧ d = act.Assign dT (act.Assign userSkeleton ds)))
          ∧ w2.calls = w.calls ++ Call.Profile ::
              (if ds.Transform = none then []
               else [Call.ExecTransform (stampAuthor ds pro) data]) := by
        cases ht : ds.Transform with
        | none =>
          simp only [ht, Prod.mk.injEq, Except.ok.injEq] at htr
          obtain ⟨⟨rfl, rfl⟩, rfl⟩ := htr
          exact ⟨Or.inl ⟨rfl, rfl, rfl, rfl⟩, by simp⟩
        | some t =>
          simp only [ht] at htr
          split at htr
          · simp at htr
          · rename_i f1 dT w3 hx
            simp only [Prod.mk.injEq, Except.ok.injEq] at htr
            obtain ⟨⟨rfl, rfl⟩, rfl⟩ := htr
            simp only [Repo.execTransform, read_state, Prod.mk.injEq] at hx
            obtain ⟨hx1, rfl⟩ := hx
            refine ⟨Or.inr ⟨by simp, dT, ?_, rfl⟩, by simp⟩
            exact Prod.ext hx1 rfl
      obtain ⟨hd, hc2⟩ := hstep
      cases hs : act.Store with
      | none => simp [hs, dsfsCreateDataset] at h
      | some fs =>
        simp only [hs, dsfsCreateDataset] at h
        split at h
        · simp at h
        · rename_i path w3 hcr
          simp only [Prod.mk.injEq] at hcr
          obtain ⟨hpath, rfl⟩ := hcr
          split at h
          · simp at h
          · rename_i _ w5 hput
            split at h
            · simp at h
            · rename_i _ w6 hlog
              have href : ref =
                  { ProfileID := pro.ID, Peername := pro.Peername, Name := name,
                    Path := path.String } := by
                split at h <;> (simp only [Prod.mk.injEq, and_true] at h; exact h.1.symm)
              have hw' : w' = (if pin = true ∧ act.pinner.isSome = true then
                  (act.logEvent EventType.ETDsPinned ref w6).2 else w6) := by
                rw [href]
                by_cases hpin : pin = true ∧ act.pinner.isSome = true
                · rw [if_pos hpin] at h ⊢
                  simp only [Prod.mk.injEq] at h
                  exact h.2.symm
                · rw [if_neg hpin] at h ⊢
                  simp only [Prod.mk.injEq] at h
                  exact h.2.symm
              rw [← href] at hput hlog
              simp only [Repo.putRef, Repo.logEvent, Prod.mk.injEq] at hput hlog
              obtain ⟨hput1, hput2⟩ := hput
              obtain ⟨hlog1, hlog2⟩ := hlog
              have hprevEq : ({ ProfileID := pro.ID, Peername := pro.Peername, Name := name,
                                Path := d.PreviousPath } : DatasetRef) = previousRef pro name d :=
                rfl
              rw [hprevEq] at hput1 hput2
              refine ⟨pro, fs, d, f, w2.state, path,
                (fs.CreateDataset d f act.PrivateKey pin w2.state).2,
                (act.PutRef ref (if d.PreviousPath ≠ "" ∧ d.PreviousPath ≠ "/" then
                  (act.DeleteRef (previousRef pro name d)
                    (fs.CreateDataset d f act.PrivateKey pin w2.state).2).2
                  else (fs.CreateDataset d f act.PrivateKey pin w2.state).2)).2,
                (act.LogEvent EventType.ETDsCreated ref
                  (act.PutRef ref (if d.PreviousPath ≠ "" ∧ d.PreviousPath ≠ "/" then
                    (act.DeleteRef (previousRef pro name d)
                      (fs.CreateDataset d f act.PrivateKey pin w2.state).2).2
                    else (fs.CreateDataset d f act.PrivateKey pin w2.state).2)).2).2,
                rfl, rfl, ?_, Prod.ext hpath rfl, href, ?_, ?_, ?_, ?_⟩
              · rcases hd with ⟨h1, h2, h3, h4⟩ | ⟨h1, dT, h2, h3⟩
                · exact Or.inl ⟨h1, h2, h3, h4⟩
                · exact Or.inr ⟨h1, dT, h2, h3⟩
              · refine Prod.ext ?_ rfl
                rw [← hput1]
                by_cases hprev : d.PreviousPath ≠ "" ∧ d.PreviousPath ≠ "/"
                · simp only [if_pos hprev, Repo.deleteRef, write_state]
                · simp only [if_neg hprev, write_state]
              · refine Prod.ext ?_ rfl
                rw [← hlog1, ← hput2]
                by_cases hprev : d.PreviousPath ≠ "" ∧ d.PreviousPath ≠ "/"
                · simp only [if_pos hprev, Repo.deleteRef, write_state]
                · simp only [if_neg hprev, write_state]
              · rw [hw', ← hlog2, ← hput2]
                by_cases hprev : d.PreviousPath ≠ "" ∧ d.PreviousPath ≠ "/" <;>
                  by_cases hpin : pin = true ∧ act.pinner.isSome = true
                · simp only [if_pos hprev, if_pos hpin, Repo.deleteRef, Repo.logEvent, write_state]
                · simp only [if_pos hprev, if_neg hpin, Repo.deleteRef, Repo.logEvent, write_state]
                · simp only [if_neg hprev, if_pos hpin, Repo.deleteRef, Repo.logEvent, write_state]
                · simp only [if_neg hprev, if_neg hpin, Repo.deleteRef, Repo.logEvent, write_state]
              · rw [hw', ← hlog2, ← hput2]
                simp only [apply_ite World.calls, Repo.deleteRef, Repo.logEvent, write_calls, hc2]
                split_ifs <;> simp [newCalls]

/-! ## The in-memory repo: addresses and what a create stores -/

theorem sanitize_noslash (cs : List Char) : ∀ c ∈ sanitize cs, c ≠ '/' := by
  intro c hc
  simp only [sanitize, List.mem_map] at hc
  obtain ⟨a, _, rfl⟩ := hc
  split
  · decide
  · assumption

theorem splitSlash_noslash (cs : List Char) (h : ∀ c ∈ cs, c ≠ '/') :
    ∀ cur, splitSlash cur cs = [cur.reverse ++ cs] := by
  induction cs with
  | nil => intro cur; simp [splitSlash]
  | cons c cs ih =>
    intro cur
    have hc : c ≠ '/' := h c (List.mem_cons_self _ _)
    have hrest : ∀ x ∈ cs, x ≠ '/' := fun x hx => h x (List.mem_cons_of_mem _ hx)
    simp [splitSlash, hc, ih hrest]

theorem NewKey_address (cs : List Char) (h : ∀ c ∈ cs, c ≠ '/') :
    NewKey (String.mk ('/' :: 'm' :: 'a' :: 'p' :: '/' :: 'Q' :: cs))
      = ⟨String.mk ('/' :: 'm' :: 'a' :: 'p' :: '/' :: 'Q' :: cs)⟩ := by
  simp [NewKey, pathCleanRooted, splitSlash, splitSlash_noslash cs h, cleanSegments,
    List.intercalate]

theorem address_not_manifest (cs : List Char) (h : ∀ c ∈ cs, c ≠ '/') :
    ("/" ++ PackageFileDataset).data.isSuffixOf ('/' :: 'm' :: 'a' :: 'p' :: '/' :: 'Q' :: cs)
      = false := by
  rw [Bool.eq_false_iff]
  intro hsuf
  rw [List.isSuffixOf_iff_suffix] at hsuf
  obtain ⟨t, ht⟩ := hsuf
  have hp : ("/" ++ PackageFileDataset).data
      = ['/', 'd', 'a', 't', 'a', 's', 'e', 't', '.', 'j', 's', 'o', 'n'] := by decide
  rw [hp] at ht
  have hsplit : t ++ ['/', 'd', 'a', 't', 'a', 's', 'e', 't', '.', 'j', 's', 'o', 'n']
      = ['/', 'm', 'a', 'p', '/', 'Q'] ++ cs := ht
  rw [List.append_eq_append_iff] at hsplit
  rcases hsplit with ⟨a, ha, hpa⟩ | ⟨c, _, hcs⟩
  · cases hrev : a.reverse with
    | nil =>
      have ha0 : a = [] := by simpa using hrev
      subst ha0
      simp only [List.nil_append] at hpa
      exact h '/' (by rw [← hpa]; simp) rfl
    | cons y ys =>
      have hr := congrArg List.reverse ha
      simp only [List.reverse_append, hrev] at hr
      have hy : y = 'Q' := by
        have := congrArg List.head? hr
        simpa using this.symm
      have hQ : 'Q' ∈ a := by
        rw [← List.mem_reverse, hrev, hy]
        exact List.mem_cons_self _ _
      have hin : 'Q' ∈ ['/', 'd', 'a', 't', 'a', 's', 'e', 't', '.', 'j', 's', 'o', 'n'] := by
        rw [hpa]; exact List.mem_append_left _ hQ
      revert hin
      decide
  · exact h '/' (by rw [hcs]; simp) rfl

theorem memAddress_clean (data : File) :
    contentKey (NewKey (memAddress data).String) = memAddress data := by
  have hns := sanitize_noslash data.data
  have h1 := NewKey_address (sanitize data.data) hns
  have h2 := address_not_manifest (sanitize data.data) hns
  simp only [memAddress, Key.String, h1, contentKey, TrimSuffix, h2]
  rfl

theorem memCreateDataset_content (cfg : MemConfig) (name : String) (ds : Dataset)
    (data : File) (secrets : Secrets) (pin : Bool) (w w1 : World MemState) (ref : DatasetRef)
    (h : CreateDataset (memRepo cfg) name ds data secrets pin w = ((ref, none), w1)) :
    ∃ pro, cfg.profile = .ok pro
      ∧ ref.Path = (memAddress data).String
      ∧ Call.CreateDataset (memStored ds pro) data pin ∈ newCalls w.calls w1.calls
      ∧ w1.state.content = (memAddress data, memStored ds pro) :: w.state.content := by
  obtain ⟨pro, fs, d, f, s, path, sput, s5, s6, hpro, hfs, hd, hput, href, hpr, hle, hst,
      hcalls⟩ :=
    CreateDataset_trace (memRepo cfg) name ds data secrets pin w w1 ref h
  have hfs2 : fs = memStore cfg := by
    simp only [memRepo] at hfs
    by_cases hh : cfg.hasStore = true
    · simp only [hh, if_true, Option.some.injEq] at hfs
      exact hfs.symm
    · simp [hh] at hfs
  subst hfs2
  have hdfs : d = memStored ds pro ∧ f = data ∧ s = w.state := by
    rcases hd with ⟨ht, hd1, hf1, hs1⟩ | ⟨ht, dT, hex, hd1⟩
    · refine ⟨?_, hf1, hs1⟩
      rw [hd1]
      simp only [memStored, ht]
    · simp only [memRepo, Prod.mk.injEq, Except.ok.injEq] at hex
      obtain ⟨⟨rfl, rfl⟩, rfl⟩ := hex
      refine ⟨?_, rfl, rfl⟩
      rw [hd1]
      cases hT : ds.Transform with
      | none => exact absurd hT ht
      | some t => simp only [memStored, hT, memRepo]
  obtain ⟨rfl, rfl, rfl⟩ := hdfs
  simp only [memStore, memCreate, Prod.mk.injEq, Except.ok.injEq] at hput
  obtain ⟨rfl, rfl⟩ := hput
  refine ⟨pro, hpro, by rw [href], ?_, ?_⟩
  · rw [hcalls]
    simp
  have h5 : s5.content = (memAddress f, memStored ds pro) :: w.state.content := by
    have := congrArg (fun x => x.2.content) hpr
    simp only [memRepo, memPutRef] at this
    rw [← this]
    split
    · exact (memDeleteRef_frame _ _).1
    · rfl
  have h6 : s6.content = s5.content := by
    have := congrArg (fun x => x.2.content) hle
    simp only [memRepo] at this
    rw [← this]
    exact (memLogEvent_frame cfg _ _ _).1
  rw [hst]
  split
  · simp only [memRepo]
    rw [(memLogEvent_frame cfg _ _ _).1, h6, h5]
  · rw [h6, h5]

/-! ## Dataset actions -/

/-- C3 (amended): when `CreateDataset` returns no error, the profile was available, the
content store's put succeeded, and `PutRef` and the `LogEvent` call for the Created event
both returned nil; the returned ref is {ProfileID and Peername of the active profile, the
given name, the path that put returned}, so its `Path` is empty exactly when the store
returned the empty path; and the events handed to the event log are a Created event for
that ref, followed by a Pinned event for that ref exactly when `pin` was requested and the
store is pin-capable.  The dataset, data and state of the put, and the state the call
leaves, are the ones the steps of `CreateDataset` produce in order. -/
theorem CreateDataset_success {σ : Type} (act : Repo σ) (name : String) (ds : Dataset)
    (data : File) (secrets : Secrets) (pin : Bool) (w w' : World σ) (ref : DatasetRef)
    (h : CreateDataset act name ds data secrets pin w = ((ref, none), w')) :
    ∃ pro fs d f s path sput s5 s6,
      act.Profile w.state = .ok pro
      ∧ act.Store = some fs
      ∧ ((ds.Transform = none ∧ d = stampAuthor ds pro ∧ f = data ∧ s = w.state)
          ∨ (ds.Transform ≠ none ∧ ∃ dT,
              act.ExecTransform (stampAuthor ds pro) data secrets w.state = (.ok (f, dT), s)
              ∧ d = act.Assign dT (act.Assign userSkeleton ds)))
      ∧ fs.CreateDataset d f act.PrivateKey pin s = (.ok path, sput)
      ∧ ref = { ProfileID := pro.ID, Peername := pro.Peername, Name := name,
                Path := path.String }
      ∧ (ref.Path = "" ↔ path.String = "")
      ∧ act.PutRef ref
          (if d.PreviousPath ≠ "" ∧ d.PreviousPath ≠ "/" then
            (act.DeleteRef (previousRef pro name d) sput).2 else sput) = (none, s5)
      ∧ act.LogEvent EventType.ETDsCreated ref s5 = (none, s6)
      ∧ w'.state = (if pin ∧ act.pinner.isSome then
          (act.LogEvent EventType.ETDsPinned ref s6).2 else s6)
      ∧ (newCalls w.calls w'.calls).count (Call.CreateDataset d f pin) = 1
      ∧ eventsLogged (newCalls w.calls w'.calls)
          = (EventType.ETDsCreated, ref)
              :: (if pin ∧ act.pinner.isSome then [(EventType.ETDsPinned, ref)] else []) := by
  obtain ⟨pro, fs, d, f, s, path, sput, s5, s6, hpro, hfs, hd, hput, href, hpr, hle, hst, hcalls⟩ :=
    CreateDataset_trace act name ds data secrets pin w w' ref h
  refine ⟨pro, fs, d, f, s, path, sput, s5, s6, hpro, hfs, hd, hput, href, ?_, hpr, hle, hst,
    ?_, ?_⟩
  · rw [href]
  · rw [hcalls]
    split_ifs <;> simp [List.count_cons, List.count_nil]
  · rw [hcalls]
    split_ifs <;> simp [eventsLogged]

/-- C3 (amended) on the in-memory repo: "schools", with a commit and no transform,
`pin = true`, on a pin-capable store. -/
theorem CreateDataset_success_witness :
    ∃ pro fs d f s path sput s5 s6,
      (memRepo aliceConfig).Profile (World.start ({} : MemState)).state = .ok pro
      ∧ (memRepo aliceConfig).Store = some fs
      ∧ ((schoolsDataset.Transform = none ∧ d = stampAuthor schoolsDataset pro
            ∧ f = "schools.csv" ∧ s = (World.start ({} : MemState)).state)
          ∨ (schoolsDataset.Transform ≠ none ∧ ∃ dT,
              (memRepo aliceConfig).ExecTransform (stampAuthor schoolsDataset pro)
                  "schools.csv" [] (World.start ({} : MemState)).state = (.ok (f, dT), s)
              ∧ d = (memRepo aliceConfig).Assign dT
                  ((memRepo aliceConfig).Assign userSkeleton schoolsDataset)))
      ∧ fs.CreateDataset d f (memRepo aliceConfig).PrivateKey true s = (.ok path, sput)
      ∧ schoolsCreated = { ProfileID := pro.ID, Peername := pro.Peername, Name := "schools",
                           Path := path.String }
      ∧ (schoolsCreated.Path = "" ↔ path.String = "")
      ∧ (memRepo aliceConfig).PutRef schoolsCreated
          (if d.PreviousPath ≠ "" ∧ d.PreviousPath ≠ "/" then
            ((memRepo aliceConfig).DeleteRef (previousRef pro "schools" d) sput).2
           else sput) = (none, s5)
      ∧ (memRepo aliceConfig).LogEvent EventType.ETDsCreated schoolsCreated s5 = (none, s6)
      ∧ (CreateDataset (memRepo aliceConfig) "schools" schoolsDataset "schools.csv" [] true
            (World.start {})).2.state
          = (if true = true ∧ (memRepo aliceConfig).pinner.isSome then
              ((memRepo aliceConfig).LogEvent EventType.ETDsPinned schoolsCreated s6).2
             else s6)
      ∧ (newCalls (World.start ({} : MemState)).calls
          (CreateDataset (memRepo aliceConfig) "schools" schoolsDataset "schools.csv" [] true
            (World.start {})).2.calls).count (Call.CreateDataset d f true) = 1
      ∧ eventsLogged (newCalls (World.start ({} : MemState)).calls
          (CreateDataset (memRepo aliceConfig) "schools" schoolsDataset "schools.csv" [] true
            (World.start {})).2.calls)
          = (EventType.ETDsCreated, schoolsCreated)
              :: (if true = true ∧ (memRepo aliceConfig).pinner.isSome then
                    [(EventType.ETDsPinned, schoolsCreated)] else []) :=
  CreateDataset_success (memRepo aliceConfig) "schools" schoolsDataset "schools.csv" [] true
    (World.start {})
    (CreateDataset (memRepo aliceConfig) "schools" schoolsDataset "schools.csv" [] true
      (World.start {})).2
    schoolsCreated (Prod.ext (by decide) rfl)

/-- C3 (counterexample): on a pin-capable store with `pin = true`, `CreateDataset`
returns no error although the event log refuses the Pinned event, and the log then holds
the Created event alone; and on a store whose put answers with the zero key, the call
returns no error and a ref with an empty `Path`. -/
theorem CreateDataset_pinned_refused_or_empty_path :
    (memRepo pinnedRefused).pinner.isSome = true
    ∧ (CreateDataset (memRepo pinnedRefused) "schools" schoolsDataset "schools.csv" [] true
        (World.start {})).1 = (schoolsCreated, none)
    ∧ (CreateDataset (memRepo pinnedRefused) "schools" schoolsDataset "schools.csv" [] true
        (World.start {})).2.state.events = [(EventType.ETDsCreated, schoolsCreated)]
    ∧ (CreateDataset zeroKeyRepo "schools" schoolsDataset "schools.csv" [] true
        (World.start {})).1
        = ({ ProfileID := "QmAlice", Peername := "alice", Name := "schools", Path := "" },
           none) := by
  decide

/-- C4 (amended): when the content of `ref` fails to load, `DeleteDataset` returns an
error and aborts before any ref removal: that load error when the active profile is
available, and the profile error, after the `Profile` call alone, when it is not (the
profile is resolved first).  In every case the state is left as it was and the only calls
made are the reads `Profile` and `LoadDataset`: no `DeleteRef`, no registry delete, no
unpin, and no event is logged. -/
theorem DeleteDataset_load_fails {σ : Type} (act : Repo σ) (ref : DatasetRef) (w : World σ)
    (e : Error) (hload : (dsfsLoadDataset act.Store (NewKey ref.Path) w).1 = .error e) :
    (∃ err, (DeleteDataset act ref w).1 = some err
        ∧ ∀ pro, act.Profile w.state = .ok pro → err = e)
    ∧ (∀ pro, act.Profile w.state = .ok pro → (DeleteDataset act ref w).1 = some e)
    ∧ (∀ ep, act.Profile w.state = .error ep →
        (DeleteDataset act ref w).1 = some ep
        ∧ newCalls w.calls (DeleteDataset act ref w).2.calls = [Call.Profile])
    ∧ (DeleteDataset act ref w).2.state = w.state
    ∧ (∀ c ∈ newCalls w.calls (DeleteDataset act ref w).2.calls,
        c = Call.Profile ∨ c = Call.LoadDataset (NewKey ref.Path))
    ∧ eventsLogged (newCalls w.calls (DeleteDataset act ref w).2.calls) = [] := by
  unfold DeleteDataset
  simp only [Repo.profile]
  cases hp : act.Profile w.state with
  | error e1 =>
    simp [newCalls_append, eventsLogged]
  | ok pro =>
    cases hs : act.Store with
    | none =>
      simp only [hs, dsfsLoadDataset, Except.error.injEq] at hload
      simp only [dsfsLoadDataset]
      simp [newCalls_append, eventsLogged, hload]
    | some fs =>
      simp only [hs, dsfsLoadDataset, read_state] at hload
      simp only [dsfsLoadDataset, read_state, hload]
      simp [newCalls_append, eventsLogged, List.append_assoc]

/-- C4 (amended) on the in-memory repo: a ref whose content is missing is deleted, once
by alice and once with no profile available. -/
theorem DeleteDataset_load_fails_witness :
    ((DeleteDataset (memRepo aliceConfig) bobsRef (World.start {})).1 = some Error.ErrNotFound
      ∧ (DeleteDataset (memRepo aliceConfig) bobsRef (World.start {})).2.state
          = (World.start ({} : MemState)).state
      ∧ eventsLogged (newCalls (World.start ({} : MemState)).calls
          (DeleteDataset (memRepo aliceConfig) bobsRef (World.start {})).2.calls) = [])
    ∧ ((DeleteDataset (memRepo noProfile) bobsRef (World.start {})).1
          = some (Error.errorf "no active profile")
      ∧ newCalls (World.start ({} : MemState)).calls
          (DeleteDataset (memRepo noProfile) bobsRef (World.start {})).2.calls
          = [Call.Profile]) :=
  ⟨⟨(DeleteDataset_load_fails (memRepo aliceConfig) bobsRef (World.start {})
        Error.ErrNotFound (by rfl)).2.1 alice (by rfl),
    (DeleteDataset_load_fails (memRepo aliceConfig) bobsRef (World.start {})
        Error.ErrNotFound (by rfl)).2.2.2.1,
    (DeleteDataset_load_fails (memRepo aliceConfig) bobsRef (World.start {})
        Error.ErrNotFound (by rfl)).2.2.2.2.2⟩,
   (DeleteDataset_load_fails (memRepo noProfile) bobsRef (World.start {})
        Error.ErrNotFound (by rfl)).2.2.1 (Error.errorf "no active profile") (by rfl)⟩

/-- C4 (counterexample): the content of the ref fails to load with NotFound, but no
profile is available: `DeleteDataset` returns the profile error, not the load error. -/
theorem DeleteDataset_profile_error_first :
    (dsfsLoadDataset (memRepo noProfile).Store (NewKey schoolsRef.Path)
        (World.start {})).1 = .error Error.ErrNotFound
    ∧ (DeleteDataset (memRepo noProfile) schoolsRef (World.start {})).1
        = some (Error.errorf "no active profile")
    ∧ (DeleteDataset (memRepo noProfile) schoolsRef (World.start {})).1
        ≠ some Error.ErrNotFound := by
  refine ⟨by rfl, by decide, by decide⟩

/-- C5 (the code at a failing input): the store can pin and its unpin operation fails,
yet `DeleteDataset` returns no error: `UnpinDataset` drops the result of `pinner.Unpin`,
logs an Unpinned event, and the delete goes on to log the Deleted event. -/
theorem DeleteDataset_drops_unpin_error :
    ((memPinner unpinFails).Unpin (NewKey schoolsRef.Path) true schoolsStored).1
        = some (Error.errorf "unpin failed")
    ∧ (DeleteDataset (memRepo unpinFails) schoolsRef (World.start schoolsStored)).1 = none
    ∧ newCalls [] (DeleteDataset (memRepo unpinFails) schoolsRef
          (World.start schoolsStored)).2.calls
        = [Call.Profile, Call.LoadDataset ⟨"/map/schools.csv"⟩, Call.DeleteRef schoolsRef,
           Call.Unpin ⟨"/map/schools.csv"⟩ true,
           Call.LogEvent EventType.ETDsUnpinned schoolsRef,
           Call.LogEvent EventType.ETDsDeleted schoolsRef] := by
  decide

/-- C8 (the code at a failing input): on a fetch-capable store whose pin operation
fails, `AddDataset` returns no error: `PinDataset` drops the result of `pinner.Pin`. -/
theorem AddDataset_drops_pin_error :
    ((memPinner pinFails).Pin (NewKey schoolsRef.Path) true {}).1
        = some (Error.errorf "pin failed")
    ∧ (memRepo pinFails).fetcher.isSome = true
    ∧ (AddDataset (memRepo pinFails) schoolsRef (World.start {})).1.2 = none
    ∧ newCalls [] (AddDataset (memRepo pinFails) schoolsRef (World.start {})).2.calls
        = [Call.Fetch SourceAny ⟨"/map/schools.csv"⟩, Call.Pin ⟨"/map/schools.csv"⟩ true,
           Call.LogEvent EventType.ETDsPinned schoolsRef, Call.PutRef schoolsRef,
           Call.LoadDataset ⟨"/map/schools.csv/dataset.json"⟩] := by
  decide

/-- C10: on a store without the pinning capability, `PinDataset` and `UnpinDataset`
return `repo.ErrNotPinner` and change nothing: no call is made on any collaborator, so no
Pinned or Unpinned event is logged. -/
theorem PinDataset_UnpinDataset_not_pinner {σ : Type} (act : Repo σ) (ref : DatasetRef)
    (w : World σ) (h : act.pinner = none) :
    PinDataset act ref w = (some Error.ErrNotPinner, w)
    ∧ UnpinDataset act ref w = (some Error.ErrNotPinner, w)
    ∧ eventsLogged (newCalls w.calls (PinDataset act ref w).2.calls) = []
    ∧ eventsLogged (newCalls w.calls (UnpinDataset act ref w).2.calls) = [] := by
  simp [PinDataset, UnpinDataset, h, newCalls, eventsLogged]

/-- C10 on the in-memory store that cannot pin. -/
theorem PinDataset_UnpinDataset_not_pinner_witness :
    PinDataset (memRepo nonPinner) schoolsRef (World.start schoolsStored)
        = (some Error.ErrNotPinner, World.start schoolsStored)
    ∧ UnpinDataset (memRepo nonPinner) schoolsRef (World.start schoolsStored)
        = (some Error.ErrNotPinner, World.start schoolsStored)
    ∧ eventsLogged (newCalls (World.start schoolsStored).calls
        (PinDataset (memRepo nonPinner) schoolsRef (World.start schoolsStored)).2.calls) = []
    ∧ eventsLogged (newCalls (World.start schoolsStored).calls
        (UnpinDataset (memRepo nonPinner) schoolsRef (World.start schoolsStored)).2.calls) = [] :=
  PinDataset_UnpinDataset_not_pinner (memRepo nonPinner) schoolsRef (World.start schoolsStored)
    (by rfl)

/-- C6 (amended), on the in-memory repo: after a `CreateDataset` and a `DeleteDataset`
of the created ref that both succeed, a `ReadDataset` of that ref still succeeds and
attaches the encoded form of the dataset the create handed to the content store (the given
dataset with the author added): the delete removes the ref and unpins, it never removes
content.  No listing of the reference store holds the ref, nor any ref of its peername and
name. -/
theorem create_delete_read_list (cfg : MemConfig) (name : String) (ds : Dataset)
    (data : File) (secrets : Secrets) (pin : Bool) (w w1 w2 : World MemState)
    (ref : DatasetRef)
    (hcreate : CreateDataset (memRepo cfg) name ds data secrets pin w = ((ref, none), w1))
    (hdelete : DeleteDataset (memRepo cfg) ref w1 = (none, w2)) :
    ∃ pro, cfg.profile = .ok pro
      ∧ Call.CreateDataset (memStored ds pro) data pin ∈ newCalls w.calls w1.calls
      ∧ (ReadDataset (memRepo cfg) ref w2).1
          = ({ ref with Dataset := some (memStored ds pro).Encode }, none)
      ∧ ∀ limit offset refs, (memRepo cfg).References limit offset w2.state = .ok refs →
          ref ∉ refs ∧ ∀ x ∈ refs, sameName x ref = false := by
  obtain ⟨pro, hpro, hpath, hcall, hc1⟩ :=
    memCreateDataset_content cfg name ds data secrets pin w w1 ref hcreate
  obtain ⟨hcontent, hrest⟩ := memDeleteDataset_effect cfg ref w1 w2 none hdelete
  obtain ⟨hstore, _, hrefs⟩ := hrest rfl
  refine ⟨pro, hpro, hcall, ?_, ?_⟩
  · have hload2 : memLoad (NewKey ref.Path) w2.state = .ok (memStored ds pro) := by
      unfold memLoad
      rw [hcontent, hc1, hpath, memAddress_clean]
      simp
    simp [ReadDataset, memRepo, hstore, dsfsLoadDataset, memStore, hload2]
  · intro limit offset refs hlist
    have hsub : ∀ x ∈ refs, x ∈ w2.state.refs := by
      intro x hx
      simp only [memRepo, memReferences, Except.ok.injEq] at hlist
      subst hlist
      exact List.mem_of_mem_drop (List.mem_of_mem_take hx)
    have hall : ∀ x ∈ refs, sameName x ref = false := fun x hx => hrefs x (hsub x hx)
    refine ⟨fun hmem => ?_, hall⟩
    have := hall ref hmem
    simp [sameName] at this

/-- C6 (amended) on alice's "schools": created with a commit, a title and a schema, then
deleted, read and listed. -/
theorem create_delete_read_list_witness :
    ∃ pro, aliceConfig.profile = .ok pro
      ∧ Call.CreateDataset (memStored schoolsDataset pro) "schools.csv" true
          ∈ newCalls (World.start ({} : MemState)).calls
              (CreateDataset (memRepo aliceConfig) "schools" schoolsDataset "schools.csv" []
                true (World.start {})).2.calls
      ∧ (ReadDataset (memRepo aliceConfig) schoolsCreated
          (DeleteDataset (memRepo aliceConfig) schoolsCreated
            (CreateDataset (memRepo aliceConfig) "schools" schoolsDataset "schools.csv" [] true
              (World.start {})).2).2).1
          = ({ schoolsCreated with Dataset := some (memStored schoolsDataset pro).Encode },
             none)
      ∧ ∀ limit offset refs,
          (memRepo aliceConfig).References limit offset
            (DeleteDataset (memRepo aliceConfig) schoolsCreated
              (CreateDataset (memRepo aliceConfig) "schools" schoolsDataset "schools.csv" []
                true (World.start {})).2).2.state = .ok refs →
          schoolsCreated ∉ refs ∧ ∀ x ∈ refs, sameName x schoolsCreated = false :=
  create_delete_read_list aliceConfig "schools" schoolsDataset "schools.csv" [] true
    (World.start {})
    (CreateDataset (memRepo aliceConfig) "schools" schoolsDataset "schools.csv" [] true
      (World.start {})).2
    (DeleteDataset (memRepo aliceConfig) schoolsCreated
      (CreateDataset (memRepo aliceConfig) "schools" schoolsDataset "schools.csv" [] true
        (World.start {})).2).2
    schoolsCreated (Prod.ext (by decide) rfl) (Prod.ext (by decide) rfl)

/-- C6 (counterexample): on a store that cannot pin, "schools" is created with a commit,
a title and a schema, then deleted, both without error; the `ReadDataset` that follows
returns no error (not NotFound) and attaches that dataset, with alice as its author. -/
theorem read_after_delete_succeeds :
    (CreateDataset (memRepo nonPinner) "schools" schoolsDataset "schools.csv" [] true
        (World.start {})).1 = (schoolsCreated, none)
    ∧ (DeleteDataset (memRepo nonPinner) schoolsCreated
        (CreateDataset (memRepo nonPinner) "schools" schoolsDataset "schools.csv" [] true
          (World.start {})).2).1 = none
    ∧ (ReadDataset (memRepo nonPinner) schoolsCreated
        (DeleteDataset (memRepo nonPinner) schoolsCreated
          (CreateDataset (memRepo nonPinner) "schools" schoolsDataset "schools.csv" [] true
            (World.start {})).2).2).1
        = ({ schoolsCreated with Dataset := some schoolsDatasetStored.Encode }, none)
    ∧ (ReadDataset (memRepo nonPinner) schoolsCreated
        (DeleteDataset (memRepo nonPinner) schoolsCreated
          (CreateDataset (memRepo nonPinner) "schools" schoolsDataset "schools.csv" [] true
            (World.start {})).2).2).1.2 ≠ some Error.ErrNotFound := by
  decide

/-! ## Registry actions -/

/-- C7 (amended): when parameter resolution succeeds (registry client and private key
configured, the ref canonicalizes and resolves to `ref1`, its dataset loads), the active
profile is available and its peername differs from the resolved ref's peername, `Publish`
and `Unpublish` both fail with the peername-mismatch error, and neither makes any call on
the registry client.  When parameter resolution fails, `Publish` and `Unpublish` return
that error instead, with no `Profile` call for the permission check and no call on the
registry client. -/
theorem Publish_Unpublish_peername_mismatch {σ : Type} (act : Repo σ) (ref : DatasetRef)
    (w : World σ) :
    (∀ (cli : RegClient σ) (pub : PubKey) (ds : Dataset) (ref1 : DatasetRef) (w1 : World σ)
        (pro : Profile),
        dsParams act ref w = (.ok (cli, pub, ds, ref1), w1) →
        act.Profile w.state = .ok pro →
        pro.Peername ≠ ref1.Peername →
          (Publish act ref w).1 = some (peernameMismatch pro.Peername ref1.Peername)
          ∧ (Unpublish act ref w).1 = some (peernameMismatch pro.Peername ref1.Peername)
          ∧ (∀ c ∈ newCalls w.calls (Publish act ref w).2.calls, c.isRegistry = false)
          ∧ (∀ c ∈ newCalls w.calls (Unpublish act ref w).2.calls, c.isRegistry = false))
    ∧ (∀ (e : Error) (w1 : World σ),
        dsParams act ref w = (.error e, w1) →
          Publish act ref w = (some e, w1)
          ∧ Unpublish act ref w = (some e, w1)
          ∧ ∀ c ∈ newCalls w.calls w1.calls, c.isRegistry = false ∧ c ≠ Call.Profile) := by
  obtain ⟨hst, l, hl, hreg⟩ := dsParams_reads act ref w
  constructor
  · intro cli pub ds ref1 w1 pro hparams hpro hne
    rw [hparams] at hst hl
    simp only at hst hl
    have hpro1 : act.Profile w1.state = .ok pro := by rw [hst]; exact hpro
    have hcalls : ∀ c ∈ l ++ [Call.Profile], c.isRegistry = false := by
      intro c hc
      rcases List.mem_append.1 hc with h | h
      · exact (hreg c h).1
      · simp only [List.mem_singleton] at h; subst h; rfl
    simp only [Publish, Unpublish, hparams, permission, Repo.profile, hpro1, hne, ne_eq,
      not_false_eq_true, if_true, read_calls, hl, List.append_assoc, newCalls_append]
    exact ⟨trivial, trivial, hcalls, hcalls⟩
  · intro e w1 hparams
    rw [hparams] at hl
    simp only at hl
    refine ⟨by simp only [Publish, hparams], by simp only [Unpublish, hparams], ?_⟩
    rw [hl, newCalls_append]
    exact hreg

/-- C7 (amended) on the in-memory repo: alice publishes a dataset of bob's, once with the
content in the store and once without it. -/
theorem Publish_Unpublish_peername_mismatch_witness :
    ((Publish (memRepo withRegistry) bobsRef
          (World.start { content := [(⟨"/map/trees.csv"⟩, {})] })).1
        = some (peernameMismatch alice.Peername bobsRef.Peername)
      ∧ (Unpublish (memRepo withRegistry) bobsRef
          (World.start { content := [(⟨"/map/trees.csv"⟩, {})] })).1
        = some (peernameMismatch alice.Peername bobsRef.Peername)
      ∧ (∀ c ∈ newCalls
            (World.start ({ content := [(⟨"/map/trees.csv"⟩, {})] } : MemState)).calls
            (Publish (memRepo withRegistry) bobsRef
              (World.start { content := [(⟨"/map/trees.csv"⟩, {})] })).2.calls,
          c.isRegistry = false)
      ∧ (∀ c ∈ newCalls
            (World.start ({ content := [(⟨"/map/trees.csv"⟩, {})] } : MemState)).calls
            (Unpublish (memRepo withRegistry) bobsRef
              (World.start { content := [(⟨"/map/trees.csv"⟩, {})] })).2.calls,
          c.isRegistry = false))
    ∧ (Publish (memRepo withRegistry) bobsRef (World.start {})
          = (some Error.ErrNotFound,
             (dsParams (memRepo withRegistry) bobsRef (World.start {})).2)
      ∧ Unpublish (memRepo withRegistry) bobsRef (World.start {})
          = (some Error.ErrNotFound,
             (dsParams (memRepo withRegistry) bobsRef (World.start {})).2)
      ∧ ∀ c ∈ newCalls (World.start ({} : MemState)).calls
            (dsParams (memRepo withRegistry) bobsRef (World.start {})).2.calls,
          c.isRegistry = false ∧ c ≠ Call.Profile) :=
  ⟨(Publish_Unpublish_peername_mismatch (memRepo withRegistry) bobsRef
      (World.start { content := [(⟨"/map/trees.csv"⟩, {})] })).1
      memRegistry alice.PrivKey.GetPublic {} bobsRef
      (dsParams (memRepo withRegistry) bobsRef
        (World.start { content := [(⟨"/map/trees.csv"⟩, {})] })).2
      alice (by rfl) (by rfl) (by decide),
   (Publish_Unpublish_peername_mismatch (memRepo withRegistry) bobsRef (World.start {})).2
      Error.ErrNotFound (dsParams (memRepo withRegistry) bobsRef (World.start {})).2
      (by rfl)⟩

/-- C7 (counterexample): registry client and private key are configured and alice's
peername differs from the ref's, but the ref's content is not in the store: `Publish` and
`Unpublish` fail with the load error, not with the peername-mismatch error. -/
theorem Publish_load_error_not_mismatch :
    (memRepo withRegistry).Registry.isSome = true
    ∧ (memRepo withRegistry).PrivateKey.isSome = true
    ∧ (memRepo withRegistry).Profile {} = .ok alice
    ∧ alice.Peername ≠ bobsRef.Peername
    ∧ (Publish (memRepo withRegistry) bobsRef (World.start {})).1 = some Error.ErrNotFound
    ∧ (Unpublish (memRepo withRegistry) bobsRef (World.start {})).1 = some Error.ErrNotFound
    ∧ (Publish (memRepo withRegistry) bobsRef (World.start {})).1
        ≠ some (peernameMismatch alice.Peername bobsRef.Peername) := by
  refine ⟨by decide, by decide, by rfl, by decide, by decide, by decide, by decide⟩

/-! ## The datasets attached by the list handler -/

theorem dsfsLoadDataset_state {σ : Type} (store : Option (Filestore σ)) (k : Key)
    (w : World σ) : (dsfsLoadDataset store k w).2.state = w.state := by
  unfold dsfsLoadDataset
  cases store <;> rfl

theorem dsfsLoadDataset_result {σ : Type} (store : Option (Filestore σ)) (k : Key)
    (w w0 : World σ) (h : w.state = w0.state) :
    (dsfsLoadDataset store k w).1 = (dsfsLoadDataset store k w0).1 := by
  unfold dsfsLoadDataset
  cases store with
  | none => rfl
  | some fs => simp only [h]

theorem loadRefs_attached {σ : Type} (r : Repo σ) (rpc : Bool) (limit : Int) :
    ∀ (refs : List DatasetRef) (i : Nat) (w w' : World σ) (out : List DatasetRef),
      loadRefs r rpc limit i refs w = (some out, w') →
      w'.state = w.state
      ∧ ∀ j ref, refs[j]? = some ref → ((i + j : Nat) : Int) < limit →
          ∃ ds, (dsfsLoadDataset r.Store (NewKey ref.Path) w).1 = .ok ds
            ∧ out[j]? = some { ref with Dataset := some (attachedPod rpc ds) } := by
  intro refs
  induction refs with
  | nil =>
    intro i w w' out h
    simp only [loadRefs, Prod.mk.injEq] at h
    obtain ⟨_, rfl⟩ := h
    exact ⟨rfl, fun j ref hj => by simp at hj⟩
  | cons ref0 rest ih =>
    intro i w w' out h
    unfold loadRefs at h
    split at h
    · rename_i hlim
      simp only [Prod.mk.injEq] at h
      obtain ⟨_, rfl⟩ := h
      refine ⟨rfl, fun j ref _ hlt => ?_⟩
      exfalso
      have : ((i + j : Nat) : Int) ≥ (i : Int) := by push_cast; omega
      omega
    · rename_i hlim
      split at h
      · simp at h
      · rename_i ds w1 hload
        have hst1 : w1.state = w.state := by
          have := dsfsLoadDataset_state r.Store (NewKey ref0.Path) w
          rw [hload] at this
          exact this
        have hds : (dsfsLoadDataset r.Store (NewKey ref0.Path) w).1 = .ok ds := by
          rw [hload]
        split at h
        · simp at h
        · rename_i rest1 w2 hrest
          simp only [Prod.mk.injEq, Option.some.injEq] at h
          obtain ⟨rfl, rfl⟩ := h
          obtain ⟨hst2, hidx⟩ := ih (i + 1) w1 w2 rest1 hrest
          refine ⟨hst2.trans hst1, fun j ref hj hlt => ?_⟩
          cases j with
          | zero =>
            simp only [List.getElem?_cons_zero, Option.some.injEq] at hj
            subst hj
            exact ⟨ds, hds, by simp [attachedPod]⟩
          | succ j =>
            simp only [List.getElem?_cons_succ] at hj
            have hlt2 : ((i + 1 + j : Nat) : Int) < limit := by
              have : i + 1 + j = i + (j + 1) := by omega
              rw [this]; exact hlt
            obtain ⟨ds2, hl2, ho2⟩ := hidx j ref hj hlt2
            refine ⟨ds2, ?_, by simpa using ho2⟩
            rw [← dsfsLoadDataset_result r.Store (NewKey ref.Path) w1 w hst1]
            exact hl2

theorem responsesSent_append (a b : List Call) :
    responsesSent (a ++ b) = responsesSent a ++ responsesSent b := by
  simp [responsesSent]

theorem loadRefs_calls {σ : Type} (r : Repo σ) (rpc : Bool) (limit : Int) :
    ∀ (refs : List DatasetRef) (i : Nat) (w : World σ),
      ∃ l, (loadRefs r rpc limit i refs w).2.calls = w.calls ++ l ∧ responsesSent l = [] := by
  intro refs
  induction refs with
  | nil => intro i w; exact ⟨[], by simp [loadRefs], rfl⟩
  | cons ref0 rest ih =>
    intro i w
    unfold loadRefs
    split
    · exact ⟨[], by simp, rfl⟩
    · have hload : ∃ l, (dsfsLoadDataset r.Store (NewKey ref0.Path) w).2.calls = w.calls ++ l
          ∧ responsesSent l = [] := by
        unfold dsfsLoadDataset
        cases r.Store with
        | none => exact ⟨[], by simp, rfl⟩
        | some fs => exact ⟨[Call.LoadDataset (NewKey ref0.Path)], rfl, rfl⟩
      obtain ⟨l1, hl1, hr1⟩ := hload
      split
      · rename_i e w1 heq
        rw [heq] at hl1
        exact ⟨l1, hl1, hr1⟩
      · rename_i ds w1 heq
        rw [heq] at hl1
        simp only at hl1
        obtain ⟨l2, hl2, hr2⟩ := ih (i + 1) w1
        refine ⟨l1 ++ l2, ?_, by rw [responsesSent_append, hr1, hr2]; rfl⟩
        split <;> (rename_i heq2; rw [heq2] at hl2; simp only at hl2 ⊢
                   rw [hl2, hl1, List.append_assoc])

/-- C11 (amended): in every response `handleDatasetsList` sends, each ref below the
clamped limit carries the dataset loaded from the content store for its path.  When the
request's `RPC` header is "true", a dataset whose structure and schema are both non-nil
has its `Structure.Schema` replaced with the empty object, and a dataset without a
structure, or with a nil schema, is sent as loaded; when the header is not "true", every
such dataset is sent exactly as loaded. -/
theorem handleDatasetsList_schema {σ : Type} (n : QriNode σ) (ws : WrappedStream σ)
    (msg : Message) (w : World σ) (m : Message)
    (hsent : m ∈ responsesSent (newCalls w.calls (handleDatasetsList n ws msg w).2.calls)) :
    ∃ dlp limit refs,
      decodeParams msg.Body = .ok dlp
      ∧ limit = (if dlp.Limit = 0 ∨ dlp.Limit > listMax then listMax else dlp.Limit)
      ∧ n.Repo.References limit dlp.Offset w.state = .ok refs
      ∧ ∀ (j : Nat) (ref : DatasetRef), refs[j]? = some ref → (j : Int) < limit →
          ∃ ds pod,
            (dsfsLoadDataset n.Repo.Store (NewKey ref.Path) w).1 = .ok ds
            ∧ m.Body.carried[j]? = some { ref with Dataset := some pod }
            ∧ (msg.Header "RPC" ≠ "true" → pod = ds.Encode)
            ∧ (msg.Header "RPC" = "true" →
                (∀ st, ds.Structure = some st → st.Schema ≠ none →
                  pod = { ds.Encode with Structure := some { st with Schema := some [] } })
                ∧ (ds.Structure = none → pod = ds.Encode)
                ∧ (∀ st, ds.Structure = some st → st.Schema = none → pod = ds.Encode)) := by
  unfold handleDatasetsList at hsent
  split at hsent
  · split at hsent
    · simp [newCalls, responsesSent] at hsent
    · rename_i dlp0 hdec
      simp only [Repo.references] at hsent
      cases hrefs : n.Repo.References
          (if dlp0.Limit = 0 ∨ dlp0.Limit > listMax then
            ({ dlp0 with Limit := listMax } : DatasetsListParams) else dlp0).Limit
          (if dlp0.Limit = 0 ∨ dlp0.Limit > listMax then
            ({ dlp0 with Limit := listMax } : DatasetsListParams) else dlp0).Offset w.state with
      | error e =>
        simp only [hrefs] at hsent
        simp [newCalls_append, responsesSent] at hsent
      | ok refs =>
        simp only [hrefs] at hsent
        obtain ⟨l, hl, hrl⟩ := loadRefs_calls n.Repo (decide (msg.Header "RPC" = "true"))
          (if dlp0.Limit = 0 ∨ dlp0.Limit > listMax then
            ({ dlp0 with Limit := listMax } : DatasetsListParams) else dlp0).Limit refs 0
          (w.read (Call.References
            (if dlp0.Limit = 0 ∨ dlp0.Limit > listMax then
              ({ dlp0 with Limit := listMax } : DatasetsListParams) else dlp0).Limit
            (if dlp0.Limit = 0 ∨ dlp0.Limit > listMax then
              ({ dlp0 with Limit := listMax } : DatasetsListParams) else dlp0).Offset))
        split at hsent
        · rename_i w2 hloop
          rw [hloop] at hl
          simp only [read_calls] at hl
          simp only [hl, List.append_assoc, newCalls_append, responsesSent_append, hrl] at hsent
          simp [responsesSent] at hsent
        · rename_i refs1 w2 hloop
          rw [hloop] at hl
          simp only [read_calls] at hl
          simp only [write_calls, hl, List.append_assoc, newCalls_append, responsesSent_append,
            hrl] at hsent
          simp only [responsesSent, List.filterMap_cons, List.filterMap_nil, List.nil_append,
            List.mem_singleton] at hsent
          obtain ⟨_, hidx⟩ := loadRefs_attached n.Repo _ _ refs 0 _ w2 refs1 hloop
          refine ⟨dlp0, _, refs, hdec, rfl, ?_, ?_⟩
          · by_cases hc : dlp0.Limit = 0 ∨ dlp0.Limit > listMax
            · simpa [hc] using hrefs
            · simpa [hc] using hrefs
          · intro j ref hj hlt
            have hlt2 : ((0 + j : Nat) : Int) <
                (if dlp0.Limit = 0 ∨ dlp0.Limit > listMax then
                  ({ dlp0 with Limit := listMax } : DatasetsListParams) else dlp0).Limit := by
              rw [Nat.zero_add]
              by_cases hc : dlp0.Limit = 0 ∨ dlp0.Limit > listMax
              · simpa [hc] using hlt
              · simpa [hc] using hlt
            obtain ⟨ds, hload, hout⟩ := hidx j ref hj hlt2
            refine ⟨ds, attachedPod (decide (msg.Header "RPC" = "true")) ds, ?_, ?_, ?_, ?_⟩
            · rw [← hload]
              exact dsfsLoadDataset_result _ _ _ _ rfl
            · rw [hsent]
              exact hout
            · intro hrpc
              unfold attachedPod
              split <;> simp [hrpc]
            · intro hrpc
              refine ⟨fun st hst hsch => ?_, fun hst => ?_, fun st hst hsch => ?_⟩
              · simp [attachedPod, Dataset.Encode, hst, hsch, hrpc]
              · simp [attachedPod, Dataset.Encode, hst]
              · simp [attachedPod, Dataset.Encode, hst, hsch]
  · simp [newCalls, responsesSent] at hsent

/-- C11 (amended) on three datasets listed over RPC. -/
theorem handleDatasetsList_schema_witness :
    ∃ dlp limit refs,
      decodeParams (rpcRequest "true").Body = .ok dlp
      ∧ limit = (if dlp.Limit = 0 ∨ dlp.Limit > listMax then listMax else dlp.Limit)
      ∧ listNode.Repo.References limit dlp.Offset (World.start threeShapes).state = .ok refs
      ∧ ∀ (j : Nat) (ref : DatasetRef), refs[j]? = some ref → (j : Int) < limit →
          ∃ ds pod,
            (dsfsLoadDataset listNode.Repo.Store (NewKey ref.Path)
                (World.start threeShapes)).1 = .ok ds
            ∧ (firstReply (rpcRequest "true")).Body.carried[j]?
                = some { ref with Dataset := some pod }
            ∧ ((rpcRequest "true").Header "RPC" ≠ "true" → pod = ds.Encode)
            ∧ ((rpcRequest "true").Header "RPC" = "true" →
                (∀ st, ds.Structure = some st → st.Schema ≠ none →
                  pod = { ds.Encode with Structure := some { st with Schema := some [] } })
                ∧ (ds.Structure = none → pod = ds.Encode)
                ∧ (∀ st, ds.Structure = some st → st.Schema = none → pod = ds.Encode)) :=
  handleDatasetsList_schema listNode memStream (rpcRequest "true") (World.start threeShapes)
    (firstReply (rpcRequest "true")) (by decide)

/-- C11 (counterexample): the request sets the RPC flag in its body and its `RPC` header
is "true", yet of the three datasets in the response only the one that had a schema
carries the empty object: the dataset without a structure still has none, and the one
without a schema still has none.  With the same body flag and the header "false", the
schema is sent as loaded. -/
theorem rpc_schema_cleared_only_when_present :
    decodeParams (rpcRequest "true").Body = .ok { Limit := 10, Offset := 0, RPC := true }
    ∧ (rpcRequest "true").Header "RPC" = "true"
    ∧ (firstReply (rpcRequest "true")).Body.carried.map
        (fun r => r.Dataset.map (fun d => d.Structure.map (fun st => st.Schema)))
        = [some none, some (some none), some (some (some []))]
    ∧ decodeParams (rpcRequest "false").Body = .ok { Limit := 10, Offset := 0, RPC := true }
    ∧ (firstReply (rpcRequest "false")).Body.carried.map
        (fun r => r.Dataset.map (fun d => d.Structure.map (fun st => st.Schema)))
        = [some none, some (some none), some (some (some [("type", "array")]))] := by
  refine ⟨by rfl, by decide, by decide, by rfl, by decide⟩

end Qri
